import Mathlib

/-!
Verification development for the `module_control_unit/nav.py` navigation
module (class `ModuleNavigation`).  The Python module is shallowly embedded:

* `struct.pack('II', y, x)` node ids become little-endian byte lists;
* numpy coordinate / current arrays become functions `ℕ → ℕ → ℝ × ℝ`
  together with their shape;
* `pyproj.Geod.inv` is an abstract oracle returning a forward azimuth and a
  distance for a pair of (lon, lat) points;
* `networkx.DiGraph` built via `add_edges_from` becomes the list of edge
  records produced by the build loop;
* `scipy.spatial.KDTree` becomes the list of points it indexes together
  with a nearest-point query (first index of minimal squared Euclidean
  distance, matching the flat Euclidean lookup of the source);
* `nx.dijkstra_path` is modelled by its library contract: source membership
  check (`NodeNotFound`), the `target in sources` early return, a
  minimal-weight simple path on success and `NetworkXNoPath` otherwise;
* Python exceptions become an `Except` error type.
-/

namespace UHABS

/-- Error outcomes surfaced by the routing query.  `degenerateRoute` is the
error kind named by the specification; the code itself can only produce the
other three (an uncaught `IndexError` is modelled by `indexError`). -/
inductive NavErr where
  | nodeNotFound
  | noPathFound
  | indexError
  | degenerateRoute
deriving DecidableEq, Repr

/-! ## Node ids: `struct.pack('II', y, x)` -/

/-- A node id is the byte string produced by `struct.pack('II', y, x)`:
eight bytes, two little-endian 32-bit unsigned fields. -/
abbrev NodeId := List ℕ

/-- The four little-endian bytes of a 32-bit unsigned value. -/
def le32 (n : ℕ) : List ℕ :=
  [n % 256, n / 256 % 256, n / 2 ^ 16 % 256, n / 2 ^ 24 % 256]

/-- `_encode_node_id`: pack `(y, x)` into the eight-byte id. -/
def encode_node_id (y x : ℕ) : NodeId := le32 y ++ le32 x

/-- Read a 32-bit unsigned value back from four little-endian bytes. -/
def unle32 (b : List ℕ) : ℕ :=
  b.getD 0 0 + 256 * b.getD 1 0 + 2 ^ 16 * b.getD 2 0 + 2 ^ 24 * b.getD 3 0

/-- `_decode_node_id`: unpack the eight-byte id back to `(y, x)`. -/
def decode_node_id (raw : NodeId) : ℕ × ℕ :=
  (unle32 (raw.take 4), unle32 (raw.drop 4))

/-! ## Geometry oracle and grid data -/

/-- Abstract `pyproj.Geod(ellps='WGS84').inv`: forward azimuth and distance
from `(lon1, lat1)` to `(lon2, lat2)` (the back azimuth is ignored by the
source). -/
structure GeodesyService where
  az : ℝ → ℝ → ℝ → ℝ → ℝ
  dist : ℝ → ℝ → ℝ → ℝ → ℝ

/-- The caller-supplied data: a `Y×X` array of `(lat, lon)` coordinates and a
co-indexed `Y×X` array of `(u, v)` current components. -/
structure Grid where
  ydim : ℕ
  xdim : ℕ
  latlons : ℕ → ℕ → ℝ × ℝ
  currents : ℕ → ℕ → ℝ × ℝ

/-- Python's float modulo `a % m` (result in `[0, m)` for `m > 0`),
used for `azimuth % 360`. -/
noncomputable def pymod (a m : ℝ) : ℝ := a - m * ⌊a / m⌋

/-! ## Neighbor enumeration (`_get_neighbors`) -/

/-- The eight candidate neighbor positions of `(ys, xs)`, in source order. -/
def candidate_neighbors (ys xs : ℤ) : List (ℤ × ℤ) :=
  [(ys + 0, xs + 1), (ys + 1, xs + 1),
   (ys + 1, xs + 0), (ys + 1, xs - 1),
   (ys + 0, xs - 1), (ys - 1, xs - 1),
   (ys - 1, xs + 0), (ys - 1, xs + 1)]

/-- The valid neighbors: candidates inside `[0, ydim) × [0, xdim)`. -/
def valid_neighbors (ys xs : ℤ) (ydim xdim : ℕ) : List (ℤ × ℤ) :=
  (candidate_neighbors ys xs).filter
    (fun c => decide (0 ≤ c.1 ∧ c.1 < (ydim : ℤ) ∧ 0 ≤ c.2 ∧ c.2 < (xdim : ℤ)))

/-- One directed edge record `(src, dest, {'weight': w, 'azimuth': theta})`. -/
structure Edge where
  src : NodeId
  dest : NodeId
  weight : ℝ
  azimuth : ℝ

/-- The edge record built by `_get_neighbors` for source cell `(ys, xs)` and
destination cell `(yd, xd)`: forward azimuth normalized to `[0, 360)`,
required velocity `dist / timestep` decomposed along the azimuth, the source
cell's current subtracted, and the Euclidean magnitude as the weight. -/
noncomputable def mkEdge (geod : GeodesyService) (g : Grid) (timestep : ℝ)
    (ys xs yd xd : ℕ) : Edge :=
  let lat_src := (g.latlons ys xs).1
  let lon_src := (g.latlons ys xs).2
  let lat_d := (g.latlons yd xd).1
  let lon_d := (g.latlons yd xd).2
  let theta := pymod (geod.az lon_src lat_src lon_d lat_d) 360
  let velocity := geod.dist lon_src lat_src lon_d lat_d / timestep
  let u_adj := velocity * Real.sin (theta * (Real.pi / 180))
  let v_adj := velocity * Real.cos (theta * (Real.pi / 180))
  let u := u_adj - (g.currents ys xs).1
  let v := v_adj - (g.currents ys xs).2
  { src := encode_node_id ys xs
    dest := encode_node_id yd xd
    weight := Real.sqrt (u ^ 2 + v ^ 2)
    azimuth := theta }

/-- `_get_neighbors`, normal path: the list of edge records from
`(ys, xs)` to each of its valid neighbors.  This models only the case of a
non-empty valid-neighbor list; when the list is empty (a cell of a 1×1
grid) the source instead raises an `IndexError` at `coords_adj[::,0]` —
that error path is modelled by `get_neighbors_checked` below. -/
noncomputable def get_neighbors (geod : GeodesyService) (g : Grid)
    (timestep : ℝ) (ys xs : ℕ) : List Edge :=
  (valid_neighbors ys xs g.ydim g.xdim).map
    (fun c => mkEdge geod g timestep ys xs c.1.toNat c.2.toNat)

/-- `_get_neighbors` with its error behavior: for a cell with no valid
neighbors, `coords_adj = np.array([])` is one-dimensional and the slice
`coords_adj[::,0]` raises an `IndexError`; otherwise the edge list of
`get_neighbors` is produced. -/
noncomputable def get_neighbors_checked (geod : GeodesyService) (g : Grid)
    (timestep : ℝ) (ys xs : ℕ) : Except NavErr (List Edge) :=
  if valid_neighbors (ys : ℤ) (xs : ℤ) g.ydim g.xdim = [] then
    .error .indexError
  else .ok (get_neighbors geod g timestep ys xs)

/-! ## Graph construction (`_transform_map`) -/

/-- The cells `(y, x)` of a `Y×X` grid in the row-major iteration order of
the build loop. -/
def cellList (ydim xdim : ℕ) : List (ℕ × ℕ) :=
  (List.range ydim).flatMap (fun y => (List.range xdim).map (fun x => (y, x)))

/-- `_transform_map`: all edges accumulated by `add_edges_from` over the
row-major sweep of the grid (normal path; see `transform_map_checked` for
the one input class on which the loop raises instead). -/
noncomputable def transform_map (geod : GeodesyService) (g : Grid)
    (timestep : ℝ) : List Edge :=
  (cellList g.ydim g.xdim).flatMap
    (fun c => get_neighbors geod g timestep c.1 c.2)

/-- One iteration of the build loop with the error behavior of
`_get_neighbors`: an already-raised error propagates, a newly raised one
aborts the loop. -/
noncomputable def buildStepChecked (geod : GeodesyService) (g : Grid)
    (timestep : ℝ) (acc : Except NavErr (List Edge)) (c : ℕ × ℕ) :
    Except NavErr (List Edge) :=
  match acc, get_neighbors_checked geod g timestep c.1 c.2 with
  | .ok es, .ok ns => .ok (es ++ ns)
  | .error e, _ => .error e
  | .ok _, .error e => .error e

/-- `_transform_map` with the error behavior of `_get_neighbors`: the sweep
raises as soon as some cell has no valid neighbors, and otherwise produces
the edges of `transform_map`. -/
noncomputable def transform_map_checked (geod : GeodesyService) (g : Grid)
    (timestep : ℝ) : Except NavErr (List Edge) :=
  (cellList g.ydim g.xdim).foldl (buildStepChecked geod g timestep) (.ok [])

/-- The node list of the built digraph: every endpoint of an edge
(`add_edges_from` inserts exactly the endpoints of the supplied edges). -/
def nodeList (G : List Edge) : List NodeId :=
  G.map (fun e => e.src) ++ G.map (fun e => e.dest)

/-- The graph has a directed edge from `a` to `b`. -/
def hasEdge (G : List Edge) (a b : NodeId) : Prop :=
  ∃ e ∈ G, e.src = a ∧ e.dest = b

instance (G : List Edge) (a b : NodeId) : Decidable (hasEdge G a b) := by
  unfold hasEdge; infer_instance

/-- Attribute lookup `G.edges[(a, b)]['weight']` (first matching record). -/
noncomputable def edgeWeight (G : List Edge) (a b : NodeId) : ℝ :=
  match G.find? (fun e => decide (e.src = a ∧ e.dest = b)) with
  | some e => e.weight
  | none => 0

/-- Attribute lookup `G.edges[(a, b)]['azimuth']` (first matching record). -/
noncomputable def edgeAzimuth (G : List Edge) (a b : NodeId) : ℝ :=
  match G.find? (fun e => decide (e.src = a ∧ e.dest = b)) with
  | some e => e.azimuth
  | none => 0

/-! ## Verbose build loop

`_transform_map` threads a counter `idx` and calls `print_progress_bar`
only when `verbose` is true.  The observable output is modelled as the list
of `(iteration, total)` arguments passed to the progress bar. -/

/-- One step of the build loop: bump the progress state when verbose, then
append the neighbor edges of the visited cell. -/
noncomputable def buildStep (geod : GeodesyService) (g : Grid) (timestep : ℝ)
    (verbose : Bool) (total : ℕ) (acc : List Edge × ℕ × List (ℕ × ℕ))
    (c : ℕ × ℕ) : List Edge × ℕ × List (ℕ × ℕ) :=
  let idx := if verbose then acc.2.1 + 1 else acc.2.1
  let out := if verbose then acc.2.2 ++ [(idx, total)] else acc.2.2
  (acc.1 ++ get_neighbors geod g timestep c.1 c.2, idx, out)

/-- `_transform_map` with the verbose flag: returns the accumulated edges
and the progress-bar invocations. -/
noncomputable def transform_map_verbose (geod : GeodesyService) (g : Grid)
    (timestep : ℝ) (verbose : Bool) : List Edge × List (ℕ × ℕ) :=
  let total := g.ydim * g.xdim
  let r := (cellList g.ydim g.xdim).foldl
    (buildStep geod g timestep verbose total) ([], 0, [])
  (r.1, r.2.2)

/-! ## Spatial index (`scipy.spatial.KDTree`) -/

/-- The nearest-neighbor index, modelled by the flat list of `(lat, lon)`
points it was built over. -/
structure KDTree where
  pts : List (ℝ × ℝ)

/-- Squared Euclidean distance in raw `(lat, lon)` space — the metric the
flat KD-tree of the source uses. -/
def sqDist (p q : ℝ × ℝ) : ℝ := (p.1 - q.1) ^ 2 + (p.2 - q.2) ^ 2

/-- Scan for the index of the nearest point, keeping the first minimum. -/
noncomputable def queryAux (p : ℝ × ℝ) :
    List (ℝ × ℝ) → ℕ → ℕ → ℝ → ℕ
  | [], _, best, _ => best
  | q :: rest, i, best, bestd =>
    if sqDist p q < bestd then queryAux p rest (i + 1) i (sqDist p q)
    else queryAux p rest (i + 1) best bestd

/-- `kdtree.query((lat, lon))`: flat index of the nearest indexed point. -/
noncomputable def KDTree.query (t : KDTree) (p : ℝ × ℝ) : ℕ :=
  match t.pts with
  | [] => 0
  | q :: rest => queryAux p rest 1 0 (sqDist p q)

/-- `np.unravel_index(i, (ydim, xdim))` in C order. -/
def unravel_index (i : ℕ) (shape : ℕ × ℕ) : ℕ × ℕ :=
  (i / shape.2, i % shape.2)

/-- `_build_tree`: the KD-tree over the row-major flattened coordinates. -/
def build_tree (g : Grid) : KDTree :=
  ⟨(cellList g.ydim g.xdim).map (fun c => g.latlons c.1 c.2)⟩

/-! ## Engine state (`ModuleNavigation`) -/

/-- The mutable state of a `ModuleNavigation` object: the current arrays,
the built graph and the built KD-tree. -/
structure NavModule where
  timestep : ℝ
  grid : Grid
  nav_graph : List Edge
  kdtree : KDTree

/-- `__init__`: build the graph and the tree from the supplied arrays. -/
noncomputable def init (geod : GeodesyService) (nav_timestep : ℝ)
    (g : Grid) : NavModule :=
  { timestep := nav_timestep
    grid := g
    nav_graph := transform_map geod g nav_timestep
    kdtree := build_tree g }

/-- `set_currents_map`: replace the arrays and rebuild the graph.  The
KD-tree field is left untouched, exactly as in the source (which never
reassigns `self.kdtree` after `__init__`). -/
noncomputable def set_currents_map (geod : GeodesyService) (m : NavModule)
    (g : Grid) : NavModule :=
  { m with grid := g, nav_graph := transform_map geod g m.timestep }

/-- `_geo_idx`: nearest flat index via the KD-tree, unravelled with the
shape of the *current* coordinate array. -/
noncomputable def geo_idx (m : NavModule) (p : ℝ × ℝ) : ℕ × ℕ :=
  unravel_index (m.kdtree.query p) (m.grid.ydim, m.grid.xdim)

/-- `get_current`: the `(u, v)` current at the resolved cell. -/
noncomputable def get_current (m : NavModule) (p : ℝ × ℝ) : ℝ × ℝ :=
  m.grid.currents (geo_idx m p).1 (geo_idx m p).2

/-! ## Shortest path (`nx.dijkstra_path`) -/

/-- A simple (duplicate-free) directed path from `s` to `t` along edges of
`G` — the kind of path Dijkstra's search can return. -/
def IsSimplePath (G : List Edge) (s t : NodeId) (p : List NodeId) : Prop :=
  p.head? = some s ∧ p.getLast? = some t ∧ p.Nodup ∧ p.Chain' (hasEdge G)

/-- Total weight of a path: the sum of the `weight` attributes along it. -/
noncomputable def pathWeight (G : List Edge) : List NodeId → ℝ
  | [] => 0
  | [_] => 0
  | a :: b :: rest => edgeWeight G a b + pathWeight G (b :: rest)

/-- Lists of length at most `n` with entries from a finite set form a
finite set. -/
lemma finite_bounded_lists {α : Type} (s : Finset α) (n : ℕ) :
    {l : List α | l.length ≤ n ∧ ∀ x ∈ l, x ∈ s}.Finite := by
  induction n with
  | zero =>
    refine Set.Finite.subset (Set.finite_singleton ([] : List α)) ?_
    rintro l ⟨hl, -⟩
    simp only [Set.mem_singleton_iff]
    exact List.eq_nil_of_length_eq_zero (Nat.le_zero.mp hl)
  | succ n ih =>
    refine Set.Finite.subset (Set.Finite.insert []
      (Set.Finite.biUnion s.finite_toSet
        (fun a _ => ih.image (fun l => a :: l)))) ?_
    rintro l ⟨hl, hmem⟩
    match l with
    | [] => exact Set.mem_insert _ _
    | a :: l' =>
      refine Set.mem_insert_of_mem _ ?_
      refine Set.mem_biUnion (hmem a (List.mem_cons_self a l')) ?_
      refine ⟨l', ⟨?_, fun x hx => hmem x (List.mem_cons_of_mem a hx)⟩, rfl⟩
      simpa [Nat.succ_le_succ_iff] using hl

/-- The source of every edge is a node of the graph. -/
lemma src_mem_nodeList {G : List Edge} {e : Edge} (he : e ∈ G) :
    e.src ∈ nodeList G :=
  List.mem_append.mpr (Or.inl (List.mem_map.mpr ⟨e, he, rfl⟩))

/-- The destination of every edge is a node of the graph. -/
lemma dest_mem_nodeList {G : List Edge} {e : Edge} (he : e ∈ G) :
    e.dest ∈ nodeList G :=
  List.mem_append.mpr (Or.inr (List.mem_map.mpr ⟨e, he, rfl⟩))

/-- Every node of an edge chain with at least two nodes lies in the node
list of the graph. -/
lemma chain'_mem_nodeList {G : List Edge} :
    ∀ p : List NodeId, 2 ≤ p.length → p.Chain' (hasEdge G) →
      ∀ x ∈ p, x ∈ nodeList G := by
  intro p
  induction p with
  | nil => intro h; simp at h
  | cons a rest ih =>
    intro hlen hc x hx
    match rest, hc, hx with
    | [], _, _ => simp at hlen
    | b :: rest', hc, hx =>
      obtain ⟨e, he, h1, h2⟩ := (List.chain'_cons.mp hc).1
      rcases List.mem_cons.mp hx with rfl | hx'
      · exact h1 ▸ src_mem_nodeList he
      · match rest', hx' with
        | [], hx' =>
          have hb : x = b := by simpa using hx'
          exact hb ▸ h2 ▸ dest_mem_nodeList he
        | c :: rest'', hx' =>
          exact ih (by simp) (List.chain'_cons.mp hc).2 x hx'

/-- Every node of a simple path between distinct endpoints lies in the
node list of the graph. -/
lemma mem_nodeList_of_path {G : List Edge} {s t : NodeId} {p : List NodeId}
    (hts : t ≠ s) (hp : IsSimplePath G s t p) : ∀ x ∈ p, x ∈ nodeList G := by
  obtain ⟨hh, hl, -, hc⟩ := hp
  have hlen : 2 ≤ p.length := by
    match p with
    | [] => simp at hh
    | [a] =>
      have h1 : a = s := by simpa using hh
      have h2 : a = t := by simpa using hl
      exact absurd (h2 ▸ h1) hts
    | a :: b :: rest => simp
  exact chain'_mem_nodeList p hlen hc

/-- For distinct endpoints, the simple paths between them form a finite
set (they are duplicate-free lists over the finitely many graph nodes). -/
lemma finite_simple_paths (G : List Edge) (s t : NodeId) (hts : t ≠ s) :
    {p : List NodeId | IsSimplePath G s t p}.Finite := by
  refine Set.Finite.subset
    (finite_bounded_lists (nodeList G).toFinset (nodeList G).length) ?_
  intro p hp
  have hmem : ∀ x ∈ p, x ∈ (nodeList G).toFinset := fun x hx =>
    List.mem_toFinset.mpr (mem_nodeList_of_path hts hp x hx)
  refine ⟨?_, hmem⟩
  have hnd : p.Nodup := hp.2.2.1
  calc p.length = p.toFinset.card := (List.toFinset_card_of_nodup hnd).symm
    _ ≤ (nodeList G).toFinset.card :=
        Finset.card_le_card (fun x hx =>
          hmem x (List.mem_toFinset.mp hx))
    _ ≤ (nodeList G).length := List.toFinset_card_le _

/-- Among the simple paths between distinct endpoints there is one of
minimal total weight. -/
lemma exists_min_path {G : List Edge} {s t : NodeId} (hts : ¬t = s)
    (h : ∃ p, IsSimplePath G s t p) :
    ∃ p, IsSimplePath G s t p ∧
      ∀ q, IsSimplePath G s t q → pathWeight G p ≤ pathWeight G q := by
  obtain ⟨p₀, hp₀⟩ := h
  obtain ⟨p, hp, hmin⟩ := Set.exists_min_image _ (pathWeight G)
    (finite_simple_paths G s t hts) ⟨p₀, hp₀⟩
  exact ⟨p, hp, fun q hq => hmin q hq⟩

open Classical in
/-- `nx.dijkstra_path G s t`, by its library contract: a missing source
raises `NodeNotFound`; `target in sources` returns the one-node path; an
unreached target raises `NetworkXNoPath`; otherwise the returned path is a
minimal-weight simple path from `s` to `t`. -/
noncomputable def dijkstra_path (G : List Edge) (s t : NodeId) :
    Except NavErr (List NodeId) :=
  if s ∈ nodeList G then
    if hts : t = s then .ok [t]
    else if h : ∃ p, IsSimplePath G s t p then
      .ok (Classical.choose (exists_min_path hts h))
    else .error .noPathFound
  else .error .nodeNotFound

/-! ## The routing query (`get_next_azimuth`) -/

/-- `get_next_azimuth`: resolve both geographic points to cells, encode
them, run Dijkstra, read `shortest_path[1]` (an out-of-range access is the
uncaught `IndexError`), look up the azimuth of the first hop and decode the
path back to coordinates. -/
noncomputable def get_next_azimuth (m : NavModule)
    (geo_pos geo_dest : ℝ × ℝ) : Except NavErr (ℝ × List (ℝ × ℝ)) :=
  let idx_pos := geo_idx m geo_pos
  let idx_dest := geo_idx m geo_dest
  let src_node := encode_node_id idx_pos.1 idx_pos.2
  let dest_node := encode_node_id idx_dest.1 idx_dest.2
  match dijkstra_path m.nav_graph src_node dest_node with
  | .error e => .error e
  | .ok shortest_path =>
    match shortest_path.get? 1 with
    | none => .error .indexError
    | some next_node =>
      .ok (edgeAzimuth m.nav_graph src_node next_node,
        shortest_path.map (fun ids =>
          m.grid.latlons (decode_node_id ids).1 (decode_node_id ids).2))

/-! ## Helper lemmas: node ids -/

/-- Decoding inverts encoding for values that fit in the two 32-bit
fields. -/
lemma decode_encode (y x : ℕ) (hy : y < 2 ^ 32) (hx : x < 2 ^ 32) :
    decode_node_id (encode_node_id y x) = (y, x) := by
  simp only [decode_node_id, encode_node_id, le32, unle32, List.cons_append,
    List.nil_append, List.take_succ_cons, List.take_zero, List.drop_succ_cons,
    List.drop_zero, Prod.mk.injEq, List.getD_cons_zero, List.getD_cons_succ]
  omega

/-- Encoding is injective on the 32-bit domain. -/
lemma encode_injective {y x y' x' : ℕ} (hy : y < 2 ^ 32) (hx : x < 2 ^ 32)
    (hy' : y' < 2 ^ 32) (hx' : x' < 2 ^ 32)
    (h : encode_node_id y x = encode_node_id y' x') : y = y' ∧ x = x' := by
  have := congrArg decode_node_id h
  rw [decode_encode y x hy hx, decode_encode y' x' hy' hx'] at this
  exact ⟨congrArg Prod.fst this, congrArg Prod.snd this⟩

/-! ## Helper lemmas: neighbors -/

/-- Membership in the candidate list is exactly the king-move relation. -/
lemma mem_candidate_iff (ys xs c1 c2 : ℤ) :
    (c1, c2) ∈ candidate_neighbors ys xs ↔
      c1 - ys ≤ 1 ∧ ys - c1 ≤ 1 ∧ c2 - xs ≤ 1 ∧ xs - c2 ≤ 1 ∧
        ¬(c1 = ys ∧ c2 = xs) := by
  simp only [candidate_neighbors, List.mem_cons, List.not_mem_nil, or_false,
    Prod.mk.injEq]
  omega

/-- Membership in the valid-neighbor list: a candidate inside the grid. -/
lemma mem_valid_iff (ys xs : ℤ) (Y X : ℕ) (c : ℤ × ℤ) :
    c ∈ valid_neighbors ys xs Y X ↔
      c ∈ candidate_neighbors ys xs ∧
        0 ≤ c.1 ∧ c.1 < (Y : ℤ) ∧ 0 ≤ c.2 ∧ c.2 < (X : ℤ) := by
  simp [valid_neighbors, List.mem_filter]

/-- King-move adjacency between two grid cells (in `ℕ` coordinates). -/
def kingAdj (ys xs yd xd : ℕ) : Prop :=
  yd ≤ ys + 1 ∧ ys ≤ yd + 1 ∧ xd ≤ xs + 1 ∧ xs ≤ xd + 1 ∧
    ¬(ys = yd ∧ xs = xd)

instance (ys xs yd xd : ℕ) : Decidable (kingAdj ys xs yd xd) := by
  unfold kingAdj; infer_instance

/-- Valid-neighbor membership for natural-number cells is exactly in-bounds
king adjacency. -/
lemma mem_valid_nat (ys xs yd xd Y X : ℕ) :
    ((yd : ℤ), (xd : ℤ)) ∈ valid_neighbors ys xs Y X ↔
      yd < Y ∧ xd < X ∧ kingAdj ys xs yd xd := by
  simp only [mem_valid_iff, mem_candidate_iff, kingAdj]
  omega

/-- The valid-neighbor list has no duplicates. -/
lemma valid_nodup (ys xs : ℤ) (Y X : ℕ) :
    (valid_neighbors ys xs Y X).Nodup := by
  apply List.Nodup.filter
  simp [candidate_neighbors, List.nodup_cons, Prod.mk.injEq]
  omega

/-- In a grid with at least two cells every in-bounds cell has at least one
valid neighbor. -/
lemma valid_nonempty {Y X ys xs : ℕ} (h2 : 2 ≤ Y * X) (hy : ys < Y)
    (hx : xs < X) : valid_neighbors (ys : ℤ) (xs : ℤ) Y X ≠ [] := by
  have hcase : 2 ≤ Y ∨ 2 ≤ X := by
    by_contra hcon
    push_neg at hcon
    have := Nat.mul_le_mul (by omega : Y ≤ 1) (by omega : X ≤ 1)
    omega
  have hex : ∃ c, c ∈ valid_neighbors (ys : ℤ) (xs : ℤ) Y X := by
    by_cases hY : (ys : ℤ) + 1 < Y
    · exact ⟨((ys : ℤ) + 1, (xs : ℤ)),
        by simp only [mem_valid_iff, mem_candidate_iff]; omega⟩
    · by_cases hY' : 1 ≤ (ys : ℤ)
      · exact ⟨((ys : ℤ) - 1, (xs : ℤ)),
          by simp only [mem_valid_iff, mem_candidate_iff]; omega⟩
      · by_cases hX : (xs : ℤ) + 1 < X
        · exact ⟨((ys : ℤ), (xs : ℤ) + 1),
            by simp only [mem_valid_iff, mem_candidate_iff]; omega⟩
        · exact ⟨((ys : ℤ), (xs : ℤ) - 1),
            by simp only [mem_valid_iff, mem_candidate_iff]; omega⟩
  obtain ⟨c, hc⟩ := hex
  exact List.ne_nil_of_mem hc

/-- Interior cells have exactly eight valid neighbors. -/
lemma valid_len_interior (Y X : ℕ) (ys xs : ℤ)
    (h1 : 1 ≤ ys) (h2 : ys + 1 < Y) (h3 : 1 ≤ xs) (h4 : xs + 1 < X) :
    (valid_neighbors ys xs Y X).length = 8 := by
  rw [valid_neighbors, candidate_neighbors]
  rw [List.filter_cons_of_pos (by simp only [decide_eq_true_eq]; omega),
    List.filter_cons_of_pos (by simp only [decide_eq_true_eq]; omega),
    List.filter_cons_of_pos (by simp only [decide_eq_true_eq]; omega),
    List.filter_cons_of_pos (by simp only [decide_eq_true_eq]; omega),
    List.filter_cons_of_pos (by simp only [decide_eq_true_eq]; omega),
    List.filter_cons_of_pos (by simp only [decide_eq_true_eq]; omega),
    List.filter_cons_of_pos (by simp only [decide_eq_true_eq]; omega),
    List.filter_cons_of_pos (by simp only [decide_eq_true_eq]; omega)]
  rfl

/-- The top-left corner has exactly three valid neighbors. -/
lemma valid_len_corner00 (Y X : ℕ) (hY : 2 ≤ Y) (hX : 2 ≤ X) :
    (valid_neighbors 0 0 Y X).length = 3 := by
  rw [valid_neighbors, candidate_neighbors]
  rw [List.filter_cons_of_pos (by simp only [decide_eq_true_eq]; omega),
    List.filter_cons_of_pos (by simp only [decide_eq_true_eq]; omega),
    List.filter_cons_of_pos (by simp only [decide_eq_true_eq]; omega),
    List.filter_cons_of_neg (by simp only [decide_eq_true_eq]; omega),
    List.filter_cons_of_neg (by simp only [decide_eq_true_eq]; omega),
    List.filter_cons_of_neg (by simp only [decide_eq_true_eq]; omega),
    List.filter_cons_of_neg (by simp only [decide_eq_true_eq]; omega),
    List.filter_cons_of_neg (by simp only [decide_eq_true_eq]; omega)]
  rfl

/-- The top-right corner has exactly three valid neighbors. -/
lemma valid_len_corner0X (Y X : ℕ) (hY : 2 ≤ Y) (hX : 2 ≤ X) :
    (valid_neighbors 0 ((X : ℤ) - 1) Y X).length = 3 := by
  rw [valid_neighbors, candidate_neighbors]
  rw [List.filter_cons_of_neg (by simp only [decide_eq_true_eq]; omega),
    List.filter_cons_of_neg (by simp only [decide_eq_true_eq]; omega),
    List.filter_cons_of_pos (by simp only [decide_eq_true_eq]; omega),
    List.filter_cons_of_pos (by simp only [decide_eq_true_eq]; omega),
    List.filter_cons_of_pos (by simp only [decide_eq_true_eq]; omega),
    List.filter_cons_of_neg (by simp only [decide_eq_true_eq]; omega),
    List.filter_cons_of_neg (by simp only [decide_eq_true_eq]; omega),
    List.filter_cons_of_neg (by simp only [decide_eq_true_eq]; omega)]
  rfl

/-- The bottom-left corner has exactly three valid neighbors. -/
lemma valid_len_cornerY0 (Y X : ℕ) (hY : 2 ≤ Y) (hX : 2 ≤ X) :
    (valid_neighbors ((Y : ℤ) - 1) 0 Y X).length = 3 := by
  rw [valid_neighbors, candidate_neighbors]
  rw [List.filter_cons_of_pos (by simp only [decide_eq_true_eq]; omega),
    List.filter_cons_of_neg (by simp only [decide_eq_true_eq]; omega),
    List.filter_cons_of_neg (by simp only [decide_eq_true_eq]; omega),
    List.filter_cons_of_neg (by simp only [decide_eq_true_eq]; omega),
    List.filter_cons_of_neg (by simp only [decide_eq_true_eq]; omega),
    List.filter_cons_of_neg (by simp only [decide_eq_true_eq]; omega),
    List.filter_cons_of_pos (by simp only [decide_eq_true_eq]; omega),
    List.filter_cons_of_pos (by simp only [decide_eq_true_eq]; omega)]
  rfl

/-- The bottom-right corner has exactly three valid neighbors. -/
lemma valid_len_cornerYX (Y X : ℕ) (hY : 2 ≤ Y) (hX : 2 ≤ X) :
    (valid_neighbors ((Y : ℤ) - 1) ((X : ℤ) - 1) Y X).length = 3 := by
  rw [valid_neighbors, candidate_neighbors]
  rw [List.filter_cons_of_neg (by simp only [decide_eq_true_eq]; omega),
    List.filter_cons_of_neg (by simp only [decide_eq_true_eq]; omega),
    List.filter_cons_of_neg (by simp only [decide_eq_true_eq]; omega),
    List.filter_cons_of_neg (by simp only [decide_eq_true_eq]; omega),
    List.filter_cons_of_pos (by simp only [decide_eq_true_eq]; omega),
    List.filter_cons_of_pos (by simp only [decide_eq_true_eq]; omega),
    List.filter_cons_of_pos (by simp only [decide_eq_true_eq]; omega),
    List.filter_cons_of_neg (by simp only [decide_eq_true_eq]; omega)]
  rfl

/-- A non-corner cell of the top row has exactly five valid neighbors. -/
lemma valid_len_edge_top (Y X : ℕ) (xs : ℤ) (hY : 2 ≤ Y)
    (h3 : 1 ≤ xs) (h4 : xs + 1 < X) :
    (valid_neighbors 0 xs Y X).length = 5 := by
  rw [valid_neighbors, candidate_neighbors]
  rw [List.filter_cons_of_pos (by simp only [decide_eq_true_eq]; omega),
    List.filter_cons_of_pos (by simp only [decide_eq_true_eq]; omega),
    List.filter_cons_of_pos (by simp only [decide_eq_true_eq]; omega),
    List.filter_cons_of_pos (by simp only [decide_eq_true_eq]; omega),
    List.filter_cons_of_pos (by simp only [decide_eq_true_eq]; omega),
    List.filter_cons_of_neg (by simp only [decide_eq_true_eq]; omega),
    List.filter_cons_of_neg (by simp only [decide_eq_true_eq]; omega),
    List.filter_cons_of_neg (by simp only [decide_eq_true_eq]; omega)]
  rfl

/-- A non-corner cell of the bottom row has exactly five valid
neighbors. -/
lemma valid_len_edge_bottom (Y X : ℕ) (xs : ℤ) (hY : 2 ≤ Y)
    (h3 : 1 ≤ xs) (h4 : xs + 1 < X) :
    (valid_neighbors ((Y : ℤ) - 1) xs Y X).length = 5 := by
  rw [valid_neighbors, candidate_neighbors]
  rw [List.filter_cons_of_pos (by simp only [decide_eq_true_eq]; omega),
    List.filter_cons_of_neg (by simp only [decide_eq_true_eq]; omega),
    List.filter_cons_of_neg (by simp only [decide_eq_true_eq]; omega),
    List.filter_cons_of_neg (by simp only [decide_eq_true_eq]; omega),
    List.filter_cons_of_pos (by simp only [decide_eq_true_eq]; omega),
    List.filter_cons_of_pos (by simp only [decide_eq_true_eq]; omega),
    List.filter_cons_of_pos (by simp only [decide_eq_true_eq]; omega),
    List.filter_cons_of_pos (by simp only [decide_eq_true_eq]; omega)]
  rfl

/-- A non-corner cell of the left column has exactly five valid
neighbors. -/
lemma valid_len_edge_left (Y X : ℕ) (ys : ℤ) (hX : 2 ≤ X)
    (h1 : 1 ≤ ys) (h2 : ys + 1 < Y) :
    (valid_neighbors ys 0 Y X).length = 5 := by
  rw [valid_neighbors, candidate_neighbors]
  rw [List.filter_cons_of_pos (by simp only [decide_eq_true_eq]; omega),
    List.filter_cons_of_pos (by simp only [decide_eq_true_eq]; omega),
    List.filter_cons_of_pos (by simp only [decide_eq_true_eq]; omega),
    List.filter_cons_of_neg (by simp only [decide_eq_true_eq]; omega),
    List.filter_cons_of_neg (by simp only [decide_eq_true_eq]; omega),
    List.filter_cons_of_neg (by simp only [decide_eq_true_eq]; omega),
    List.filter_cons_of_pos (by simp only [decide_eq_true_eq]; omega),
    List.filter_cons_of_pos (by simp only [decide_eq_true_eq]; omega)]
  rfl

/-- A non-corner cell of the right column has exactly five valid
neighbors. -/
lemma valid_len_edge_right (Y X : ℕ) (ys : ℤ) (hX : 2 ≤ X)
    (h1 : 1 ≤ ys) (h2 : ys + 1 < Y) :
    (valid_neighbors ys ((X : ℤ) - 1) Y X).length = 5 := by
  rw [valid_neighbors, candidate_neighbors]
  rw [List.filter_cons_of_neg (by simp only [decide_eq_true_eq]; omega),
    List.filter_cons_of_neg (by simp only [decide_eq_true_eq]; omega),
    List.filter_cons_of_pos (by simp only [decide_eq_true_eq]; omega),
    List.filter_cons_of_pos (by simp only [decide_eq_true_eq]; omega),
    List.filter_cons_of_pos (by simp only [decide_eq_true_eq]; omega),
    List.filter_cons_of_pos (by simp only [decide_eq_true_eq]; omega),
    List.filter_cons_of_pos (by simp only [decide_eq_true_eq]; omega),
    List.filter_cons_of_neg (by simp only [decide_eq_true_eq]; omega)]
  rfl

/-- The valid-neighbor list never has more than eight entries. -/
lemma valid_len_le (ys xs : ℤ) (Y X : ℕ) :
    (valid_neighbors ys xs Y X).length ≤ 8 := by
  have h := List.length_filter_le
    (fun c : ℤ × ℤ =>
      decide (0 ≤ c.1 ∧ c.1 < (Y : ℤ) ∧ 0 ≤ c.2 ∧ c.2 < (X : ℤ)))
    (candidate_neighbors ys xs)
  simpa [valid_neighbors, candidate_neighbors] using h

/-! ## Helper lemmas: the built graph -/

lemma mkEdge_src (geod : GeodesyService) (g : Grid) (ts : ℝ)
    (ys xs yd xd : ℕ) :
    (mkEdge geod g ts ys xs yd xd).src = encode_node_id ys xs := rfl

lemma mkEdge_dest (geod : GeodesyService) (g : Grid) (ts : ℝ)
    (ys xs yd xd : ℕ) :
    (mkEdge geod g ts ys xs yd xd).dest = encode_node_id yd xd := rfl

lemma mkEdge_azimuth (geod : GeodesyService) (g : Grid) (ts : ℝ)
    (ys xs yd xd : ℕ) :
    (mkEdge geod g ts ys xs yd xd).azimuth =
      pymod (geod.az (g.latlons ys xs).2 (g.latlons ys xs).1
        (g.latlons yd xd).2 (g.latlons yd xd).1) 360 := rfl

lemma mkEdge_weight (geod : GeodesyService) (g : Grid) (ts : ℝ)
    (ys xs yd xd : ℕ) :
    (mkEdge geod g ts ys xs yd xd).weight =
      Real.sqrt
        ((geod.dist (g.latlons ys xs).2 (g.latlons ys xs).1
            (g.latlons yd xd).2 (g.latlons yd xd).1 / ts *
          Real.sin ((mkEdge geod g ts ys xs yd xd).azimuth *
            (Real.pi / 180)) - (g.currents ys xs).1) ^ 2 +
         (geod.dist (g.latlons ys xs).2 (g.latlons ys xs).1
            (g.latlons yd xd).2 (g.latlons yd xd).1 / ts *
          Real.cos ((mkEdge geod g ts ys xs yd xd).azimuth *
            (Real.pi / 180)) - (g.currents ys xs).2) ^ 2) := rfl

lemma mem_cellList (Y X : ℕ) (y x : ℕ) :
    (y, x) ∈ cellList Y X ↔ y < Y ∧ x < X := by
  simp [cellList, Prod.mk.injEq]

lemma length_cellList (Y X : ℕ) : (cellList Y X).length = Y * X := by
  rw [cellList, List.length_flatMap]
  simp only [Function.comp_def, List.length_map, List.length_range]
  rw [List.map_const', List.sum_replicate, smul_eq_mul, List.length_range,
    Nat.mul_comm]

/-- The edges of the built graph are exactly the `mkEdge` records over
in-bounds king-adjacent cell pairs. -/
lemma mem_transform_map_iff {geod : GeodesyService} {g : Grid} {ts : ℝ}
    {e : Edge} :
    e ∈ transform_map geod g ts ↔
      ∃ ys xs yd xd : ℕ, ys < g.ydim ∧ xs < g.xdim ∧ yd < g.ydim ∧
        xd < g.xdim ∧ kingAdj ys xs yd xd ∧
        e = mkEdge geod g ts ys xs yd xd := by
  constructor
  · intro he
    obtain ⟨c, hc, he'⟩ := List.mem_flatMap.mp he
    obtain ⟨hy, hx⟩ := (mem_cellList g.ydim g.xdim c.1 c.2).mp hc
    obtain ⟨d, hd, he''⟩ := List.mem_map.mp he'
    have hd' := (mem_valid_iff c.1 c.2 g.ydim g.xdim d).mp hd
    have hd1 : ((d.1.toNat : ℤ), (d.2.toNat : ℤ)) = d := by
      obtain ⟨-, h1, -, h2, -⟩ := hd'
      simp [Int.toNat_of_nonneg h1, Int.toNat_of_nonneg h2]
    have hmem : ((d.1.toNat : ℤ), (d.2.toNat : ℤ)) ∈
        valid_neighbors c.1 c.2 g.ydim g.xdim := by rw [hd1]; exact hd
    obtain ⟨hbd1, hbd2, hadj⟩ :=
      (mem_valid_nat c.1 c.2 d.1.toNat d.2.toNat g.ydim g.xdim).mp hmem
    exact ⟨c.1, c.2, d.1.toNat, d.2.toNat, hy, hx, hbd1, hbd2, hadj,
      he''.symm⟩
  · rintro ⟨ys, xs, yd, xd, hys, hxs, hyd, hxd, hadj, rfl⟩
    refine List.mem_flatMap.mpr ⟨(ys, xs),
      (mem_cellList g.ydim g.xdim ys xs).mpr ⟨hys, hxs⟩, ?_⟩
    refine List.mem_map.mpr ⟨((yd : ℤ), (xd : ℤ)), ?_, by simp⟩
    exact (mem_valid_nat ys xs yd xd g.ydim g.xdim).mpr ⟨hyd, hxd, hadj⟩

/-- In a grid with at least two cells, the nodes of the built graph are
exactly the encodings of the in-bounds cells. -/
lemma mem_nodeList_transform_iff {geod : GeodesyService} {g : Grid} {ts : ℝ}
    (h2 : 2 ≤ g.ydim * g.xdim) {n : NodeId} :
    n ∈ nodeList (transform_map geod g ts) ↔
      ∃ y x, y < g.ydim ∧ x < g.xdim ∧ n = encode_node_id y x := by
  constructor
  · intro hn
    rcases List.mem_append.mp hn with h | h
    · obtain ⟨e, he, rfl⟩ := List.mem_map.mp h
      obtain ⟨ys, xs, yd, xd, hys, hxs, -, -, -, rfl⟩ :=
        mem_transform_map_iff.mp he
      exact ⟨ys, xs, hys, hxs, rfl⟩
    · obtain ⟨e, he, rfl⟩ := List.mem_map.mp h
      obtain ⟨ys, xs, yd, xd, -, -, hyd, hxd, -, rfl⟩ :=
        mem_transform_map_iff.mp he
      exact ⟨yd, xd, hyd, hxd, rfl⟩
  · rintro ⟨y, x, hy, hx, rfl⟩
    obtain ⟨c, hc⟩ :=
      List.exists_mem_of_ne_nil _ (valid_nonempty h2 hy hx)
    have hc' := (mem_valid_iff _ _ _ _ c).mp hc
    have hc1 : ((c.1.toNat : ℤ), (c.2.toNat : ℤ)) = c := by
      obtain ⟨-, h1, -, h2', -⟩ := hc'
      simp [Int.toNat_of_nonneg h1, Int.toNat_of_nonneg h2']
    obtain ⟨hbd1, hbd2, hadj⟩ :=
      (mem_valid_nat y x c.1.toNat c.2.toNat g.ydim g.xdim).mp
        (hc1 ▸ hc)
    have hmem : mkEdge geod g ts y x c.1.toNat c.2.toNat ∈
        transform_map geod g ts :=
      mem_transform_map_iff.mpr
        ⟨y, x, c.1.toNat, c.2.toNat, hy, hx, hbd1, hbd2, hadj, rfl⟩
    exact (mkEdge_src geod g ts y x c.1.toNat c.2.toNat) ▸
      src_mem_nodeList hmem

/-- The built graph has at most `8·Y·X` edges. -/
lemma transform_map_length_le (geod : GeodesyService) (g : Grid) (ts : ℝ) :
    (transform_map geod g ts).length ≤ 8 * (g.ydim * g.xdim) := by
  rw [transform_map, List.length_flatMap]
  have hle : ∀ c ∈ cellList g.ydim g.xdim,
      (get_neighbors geod g ts c.1 c.2).length ≤ 8 := by
    intro c _
    rw [get_neighbors, List.length_map]
    exact valid_len_le _ _ _ _
  calc ((cellList g.ydim g.xdim).map
          (fun c => (get_neighbors geod g ts c.1 c.2).length)).sum
      ≤ ((cellList g.ydim g.xdim).map (fun _ => 8)).sum := by
        apply List.sum_le_sum
        intro c hc
        exact hle c hc
    _ = 8 * (g.ydim * g.xdim) := by
        rw [List.map_const', List.sum_replicate, smul_eq_mul,
          length_cellList, Nat.mul_comm]

lemma get_neighbors_checked_ok {geod : GeodesyService} {g : Grid} {ts : ℝ}
    {ys xs : ℕ}
    (h : valid_neighbors (ys : ℤ) (xs : ℤ) g.ydim g.xdim ≠ []) :
    get_neighbors_checked geod g ts ys xs =
      .ok (get_neighbors geod g ts ys xs) := by
  rw [get_neighbors_checked, if_neg h]

lemma buildStepChecked_ok {geod : GeodesyService} {g : Grid} {ts : ℝ}
    {c : ℕ × ℕ} (es : List Edge)
    (h : valid_neighbors (c.1 : ℤ) (c.2 : ℤ) g.ydim g.xdim ≠ []) :
    buildStepChecked geod g ts (.ok es) c =
      .ok (es ++ get_neighbors geod g ts c.1 c.2) := by
  simp only [buildStepChecked, get_neighbors_checked_ok h]

/-- The checked build loop over cells that all have neighbors. -/
lemma transform_map_checked_foldl (geod : GeodesyService) (g : Grid)
    (ts : ℝ) :
    ∀ cells : List (ℕ × ℕ),
      (∀ c ∈ cells,
        valid_neighbors (c.1 : ℤ) (c.2 : ℤ) g.ydim g.xdim ≠ []) →
      ∀ es : List Edge,
        cells.foldl (buildStepChecked geod g ts) (.ok es) =
          .ok (es ++
            cells.flatMap (fun c => get_neighbors geod g ts c.1 c.2)) := by
  intro cells
  induction cells with
  | nil => intro _ es; simp
  | cons c cells ih =>
    intro hne es
    rw [List.foldl_cons,
      buildStepChecked_ok es (hne c (List.mem_cons_self c cells)),
      ih (fun c' hc' => hne c' (List.mem_cons_of_mem c hc')),
      List.flatMap_cons, List.append_assoc]

/-- On any grid with at least two cells, the checked builder succeeds and
produces exactly the edges of `transform_map`. -/
lemma transform_map_checked_eq_ok {geod : GeodesyService} {g : Grid}
    {ts : ℝ} (h2 : 2 ≤ g.ydim * g.xdim) :
    transform_map_checked geod g ts = .ok (transform_map geod g ts) := by
  have hall : ∀ c ∈ cellList g.ydim g.xdim,
      valid_neighbors (c.1 : ℤ) (c.2 : ℤ) g.ydim g.xdim ≠ [] := by
    intro c hc
    obtain ⟨y, x⟩ := c
    obtain ⟨hy, hx⟩ := (mem_cellList g.ydim g.xdim y x).mp hc
    exact valid_nonempty h2 hy hx
  rw [transform_map_checked,
    transform_map_checked_foldl geod g ts _ hall [], List.nil_append]
  rfl

/-- No edge of the built graph is a self-loop (32-bit grid bounds keep the
encoding injective). -/
lemma transform_map_no_self_loop {geod : GeodesyService} {g : Grid} {ts : ℝ}
    (hY : g.ydim ≤ 2 ^ 32) (hX : g.xdim ≤ 2 ^ 32) :
    ∀ e ∈ transform_map geod g ts, e.src ≠ e.dest := by
  intro e he
  obtain ⟨ys, xs, yd, xd, hys, hxs, hyd, hxd, hadj, rfl⟩ :=
    mem_transform_map_iff.mp he
  rw [mkEdge_src, mkEdge_dest]
  intro hcon
  obtain ⟨h1, h2⟩ := encode_injective (by omega) (by omega) (by omega)
    (by omega) hcon
  exact hadj.2.2.2.2 ⟨h1, h2⟩

/-- `find?` returns the unique element satisfying the predicate. -/
lemma find?_eq_some_unique {α : Type} {p : α → Bool} {l : List α} {e : α}
    (he : e ∈ l) (hpe : p e = true) (hu : ∀ x ∈ l, p x = true → x = e) :
    l.find? p = some e := by
  induction l with
  | nil => cases he
  | cons a l ih =>
    by_cases hpa : p a = true
    · have ha : a = e := hu a (List.mem_cons_self a l) hpa
      rw [ha, List.find?_cons_of_pos _ hpe]
    · rw [List.find?_cons_of_neg _ (by simpa using hpa)]
      rcases List.mem_cons.mp he with rfl | he'
      · exact absurd hpe hpa
      · exact ih he' (fun x hx hpx => hu x (List.mem_cons_of_mem a hx) hpx)

/-- There is exactly one edge record per ordered adjacent cell pair, so the
attribute lookup finds the `mkEdge` record. -/
lemma transform_map_find (geod : GeodesyService) (g : Grid) (ts : ℝ)
    (hY : g.ydim ≤ 2 ^ 32) (hX : g.xdim ≤ 2 ^ 32) {ys xs yd xd : ℕ}
    (hys : ys < g.ydim) (hxs : xs < g.xdim) (hyd : yd < g.ydim)
    (hxd : xd < g.xdim) (hadj : kingAdj ys xs yd xd) :
    (transform_map geod g ts).find?
        (fun e => decide (e.src = encode_node_id ys xs ∧
          e.dest = encode_node_id yd xd)) =
      some (mkEdge geod g ts ys xs yd xd) := by
  apply find?_eq_some_unique
  · exact mem_transform_map_iff.mpr
      ⟨ys, xs, yd, xd, hys, hxs, hyd, hxd, hadj, rfl⟩
  · simp [mkEdge_src, mkEdge_dest]
  · intro e he hpe
    obtain ⟨ys', xs', yd', xd', hys', hxs', hyd', hxd', hadj', rfl⟩ :=
      mem_transform_map_iff.mp he
    simp only [mkEdge_src, mkEdge_dest, decide_eq_true_eq] at hpe
    obtain ⟨hsrc, hdst⟩ := hpe
    obtain ⟨rfl, rfl⟩ := encode_injective (by omega) (by omega) (by omega)
      (by omega) hsrc
    obtain ⟨rfl, rfl⟩ := encode_injective (by omega) (by omega) (by omega)
      (by omega) hdst
    rfl

/-- Weight attribute of the first hop between adjacent cells. -/
lemma edgeWeight_transform (geod : GeodesyService) (g : Grid) (ts : ℝ)
    (hY : g.ydim ≤ 2 ^ 32) (hX : g.xdim ≤ 2 ^ 32) {ys xs yd xd : ℕ}
    (hys : ys < g.ydim) (hxs : xs < g.xdim) (hyd : yd < g.ydim)
    (hxd : xd < g.xdim) (hadj : kingAdj ys xs yd xd) :
    edgeWeight (transform_map geod g ts) (encode_node_id ys xs)
        (encode_node_id yd xd) =
      (mkEdge geod g ts ys xs yd xd).weight := by
  rw [edgeWeight, transform_map_find geod g ts hY hX hys hxs hyd hxd hadj]

/-- Azimuth attribute of the first hop between adjacent cells. -/
lemma edgeAzimuth_transform (geod : GeodesyService) (g : Grid) (ts : ℝ)
    (hY : g.ydim ≤ 2 ^ 32) (hX : g.xdim ≤ 2 ^ 32) {ys xs yd xd : ℕ}
    (hys : ys < g.ydim) (hxs : xs < g.xdim) (hyd : yd < g.ydim)
    (hxd : xd < g.xdim) (hadj : kingAdj ys xs yd xd) :
    edgeAzimuth (transform_map geod g ts) (encode_node_id ys xs)
        (encode_node_id yd xd) =
      (mkEdge geod g ts ys xs yd xd).azimuth := by
  rw [edgeAzimuth, transform_map_find geod g ts hY hX hys hxs hyd hxd hadj]

/-! ## Helper lemmas: the Python float modulo -/

lemma pymod_nonneg (a : ℝ) : 0 ≤ pymod a 360 := by
  rw [pymod]
  have h := Int.floor_le (a / 360)
  have h' := mul_le_mul_of_nonneg_left h (by norm_num : (0 : ℝ) ≤ 360)
  have h360 : (360 : ℝ) * (a / 360) = a := by ring
  linarith

lemma pymod_lt (a : ℝ) : pymod a 360 < 360 := by
  rw [pymod]
  have h := Int.lt_floor_add_one (a / 360)
  have h' := mul_lt_mul_of_pos_left h (by norm_num : (0 : ℝ) < 360)
  have h360 : (360 : ℝ) * (a / 360) = a := by ring
  nlinarith

/-- Normalizing the azimuth with `% 360` does not change its sine in
radians. -/
lemma sin_pymod (a : ℝ) :
    Real.sin (pymod a 360 * (Real.pi / 180)) =
      Real.sin (a * (Real.pi / 180)) := by
  have h := Real.sin_add_int_mul_two_pi (a * (Real.pi / 180)) (-⌊a / 360⌋)
  rw [← h]
  congr 1
  rw [pymod]
  push_cast
  ring

/-- Normalizing the azimuth with `% 360` does not change its cosine in
radians. -/
lemma cos_pymod (a : ℝ) :
    Real.cos (pymod a 360 * (Real.pi / 180)) =
      Real.cos (a * (Real.pi / 180)) := by
  have h := Real.cos_add_int_mul_two_pi (a * (Real.pi / 180)) (-⌊a / 360⌋)
  rw [← h]
  congr 1
  rw [pymod]
  push_cast
  ring

/-! ## Helper lemmas: edge weights -/

/-- Every edge weight is a square root, hence non-negative. -/
lemma mkEdge_weight_nonneg (geod : GeodesyService) (g : Grid) (ts : ℝ)
    (ys xs yd xd : ℕ) : 0 ≤ (mkEdge geod g ts ys xs yd xd).weight :=
  Real.sqrt_nonneg _

/-- With a zero current at the source cell the weight collapses to the
required ground speed `distance / timestep`. -/
lemma mkEdge_weight_zero_flow {geod : GeodesyService} {g : Grid} {ts : ℝ}
    {ys xs yd xd : ℕ} (hz : g.currents ys xs = (0, 0)) (ht : 0 < ts)
    (hd : 0 ≤ geod.dist (g.latlons ys xs).2 (g.latlons ys xs).1
      (g.latlons yd xd).2 (g.latlons yd xd).1) :
    (mkEdge geod g ts ys xs yd xd).weight =
      geod.dist (g.latlons ys xs).2 (g.latlons ys xs).1
        (g.latlons yd xd).2 (g.latlons yd xd).1 / ts := by
  rw [mkEdge_weight, hz]
  have hsc := Real.sin_sq_add_cos_sq
    ((mkEdge geod g ts ys xs yd xd).azimuth * (Real.pi / 180))
  have hkey : (geod.dist (g.latlons ys xs).2 (g.latlons ys xs).1
        (g.latlons yd xd).2 (g.latlons yd xd).1 / ts *
      Real.sin ((mkEdge geod g ts ys xs yd xd).azimuth * (Real.pi / 180)) -
        ((0 : ℝ), (0 : ℝ)).1) ^ 2 +
      (geod.dist (g.latlons ys xs).2 (g.latlons ys xs).1
        (g.latlons yd xd).2 (g.latlons yd xd).1 / ts *
      Real.cos ((mkEdge geod g ts ys xs yd xd).azimuth * (Real.pi / 180)) -
        ((0 : ℝ), (0 : ℝ)).2) ^ 2 =
      (geod.dist (g.latlons ys xs).2 (g.latlons ys xs).1
        (g.latlons yd xd).2 (g.latlons yd xd).1 / ts) ^ 2 := by
    simp only [Prod.fst, Prod.snd]
    nlinarith [hsc]
  rw [hkey, Real.sqrt_sq (by positivity)]

/-! ## Helper lemmas: Dijkstra -/

lemma dijkstra_not_mem {G : List Edge} {s t : NodeId}
    (hs : s ∉ nodeList G) : dijkstra_path G s t = .error .nodeNotFound := by
  rw [dijkstra_path, if_neg hs]

lemma dijkstra_self {G : List Edge} {s : NodeId} (hs : s ∈ nodeList G) :
    dijkstra_path G s s = .ok [s] := by
  rw [dijkstra_path, if_pos hs, dif_pos rfl]

lemma dijkstra_no_path {G : List Edge} {s t : NodeId}
    (hs : s ∈ nodeList G) (hts : ¬t = s)
    (h : ¬∃ p, IsSimplePath G s t p) :
    dijkstra_path G s t = .error .noPathFound := by
  rw [dijkstra_path, if_pos hs, dif_neg hts, dif_neg h]

/-- When one simple path is strictly lighter than every other, Dijkstra
returns exactly that path. -/
lemma dijkstra_unique {G : List Edge} {s t : NodeId} {p₀ : List NodeId}
    (hs : s ∈ nodeList G) (hts : ¬t = s) (hp : IsSimplePath G s t p₀)
    (hu : ∀ q, IsSimplePath G s t q → q ≠ p₀ →
      pathWeight G p₀ < pathWeight G q) :
    dijkstra_path G s t = .ok p₀ := by
  rw [dijkstra_path, if_pos hs, dif_neg hts, dif_pos ⟨p₀, hp⟩]
  congr 1
  obtain ⟨hc, hmin⟩ := Classical.choose_spec (exists_min_path hts ⟨p₀, hp⟩)
  by_contra hne
  have h1 := hmin p₀ hp
  have h2 := hu _ hc hne
  linarith

/-- The weight of a two-node path is the weight of its single edge. -/
lemma pathWeight_pair (G : List Edge) (a b : NodeId) :
    pathWeight G [a, b] = edgeWeight G a b := by
  simp [pathWeight]

/-! ## Helper lemmas: shortest paths on a zero-flow grid -/

/-- Geodesic distance between two grid cells (as fed to `geod.inv`:
longitude first). -/
noncomputable def cellDist (geod : GeodesyService) (g : Grid)
    (a b : ℕ × ℕ) : ℝ :=
  geod.dist (g.latlons a.1 a.2).2 (g.latlons a.1 a.2).1
    (g.latlons b.1 b.2).2 (g.latlons b.1 b.2).1

/-- Every node of the built graph is the encoding of an in-bounds cell. -/
lemma nodeList_transform_elim {geod : GeodesyService} {g : Grid} {ts : ℝ}
    {n : NodeId} (hn : n ∈ nodeList (transform_map geod g ts)) :
    ∃ y x, y < g.ydim ∧ x < g.xdim ∧ n = encode_node_id y x := by
  rcases List.mem_append.mp hn with h | h
  · obtain ⟨e, he, rfl⟩ := List.mem_map.mp h
    obtain ⟨ys, xs, yd, xd, hys, hxs, -, -, -, rfl⟩ :=
      mem_transform_map_iff.mp he
    exact ⟨ys, xs, hys, hxs, rfl⟩
  · obtain ⟨e, he, rfl⟩ := List.mem_map.mp h
    obtain ⟨ys, xs, yd, xd, -, -, hyd, hxd, -, rfl⟩ :=
      mem_transform_map_iff.mp he
    exact ⟨yd, xd, hyd, hxd, rfl⟩

/-- Unpack a graph edge into its cell data, including the value of the
weight-attribute lookup. -/
lemma hasEdge_elim {geod : GeodesyService} {g : Grid} {ts : ℝ}
    (hY : g.ydim ≤ 2 ^ 32) (hX : g.xdim ≤ 2 ^ 32) {a b : NodeId}
    (hab : hasEdge (transform_map geod g ts) a b) :
    ∃ ys xs yd xd : ℕ, ys < g.ydim ∧ xs < g.xdim ∧ yd < g.ydim ∧
      xd < g.xdim ∧ kingAdj ys xs yd xd ∧ a = encode_node_id ys xs ∧
      b = encode_node_id yd xd ∧
      edgeWeight (transform_map geod g ts) a b =
        (mkEdge geod g ts ys xs yd xd).weight := by
  obtain ⟨e, he, h1, h2⟩ := hab
  obtain ⟨ys, xs, yd, xd, hys, hxs, hyd, hxd, hadj, rfl⟩ :=
    mem_transform_map_iff.mp he
  rw [mkEdge_src] at h1
  rw [mkEdge_dest] at h2
  refine ⟨ys, xs, yd, xd, hys, hxs, hyd, hxd, hadj, h1.symm, h2.symm, ?_⟩
  rw [← h1, ← h2]
  exact edgeWeight_transform geod g ts hY hX hys hxs hyd hxd hadj

/-- On a zero-flow grid each graph edge weighs exactly the cell distance
divided by the timestep. -/
lemma edgeWeight_zero_flow {geod : GeodesyService} {g : Grid} {ts : ℝ}
    (hz : ∀ y x, g.currents y x = (0, 0)) (ht : 0 < ts)
    (hd : ∀ p q r s : ℝ, 0 ≤ geod.dist p q r s)
    (hY : g.ydim ≤ 2 ^ 32) (hX : g.xdim ≤ 2 ^ 32) {a b : NodeId}
    (hab : hasEdge (transform_map geod g ts) a b) :
    edgeWeight (transform_map geod g ts) a b =
      cellDist geod g (decode_node_id a) (decode_node_id b) / ts := by
  obtain ⟨ys, xs, yd, xd, hys, hxs, hyd, hxd, -, rfl, rfl, hw⟩ :=
    hasEdge_elim hY hX hab
  rw [hw, mkEdge_weight_zero_flow (hz ys xs) ht (hd _ _ _ _),
    decode_encode ys xs (by omega) (by omega),
    decode_encode yd xd (by omega) (by omega)]
  rfl

/-- Strict-triangle hypothesis on the geodesic distances between distinct
grid cells; true of real geodesic distance on any grid whose cell
coordinates are in general position. -/
def StrictTriangle (geod : GeodesyService) (g : Grid) : Prop :=
  ∀ a b c : ℕ × ℕ, a.1 < g.ydim → a.2 < g.xdim → b.1 < g.ydim →
    b.2 < g.xdim → c.1 < g.ydim → c.2 < g.xdim → a ≠ b → b ≠ c → a ≠ c →
    cellDist geod g a c < cellDist geod g a b + cellDist geod g b c

/-- On a zero-flow grid, any chain of at least one hop weighs at least the
direct cell distance between its endpoints, divided by the timestep. -/
lemma pathWeight_lower_bound {geod : GeodesyService} {g : Grid} {ts : ℝ}
    (hz : ∀ y x, g.currents y x = (0, 0)) (ht : 0 < ts)
    (hd : ∀ p q r s : ℝ, 0 ≤ geod.dist p q r s)
    (hY : g.ydim ≤ 2 ^ 32) (hX : g.xdim ≤ 2 ^ 32)
    (htri : StrictTriangle geod g) :
    ∀ (p : List NodeId) (a z : NodeId), p ≠ [] →
      (a :: p).Chain' (hasEdge (transform_map geod g ts)) →
      (a :: p).Nodup → (a :: p).getLast? = some z →
      cellDist geod g (decode_node_id a) (decode_node_id z) / ts ≤
        pathWeight (transform_map geod g ts) (a :: p) := by
  intro p
  induction p with
  | nil => intro a z hne; exact absurd rfl hne
  | cons b p' ih =>
    intro a z hne hc hnd hlast
    have hedge : hasEdge (transform_map geod g ts) a b :=
      (List.chain'_cons.mp hc).1
    match p' with
    | [] =>
      have hz' : z = b := by
        simp only [List.getLast?_cons_cons, List.getLast?_singleton,
          Option.some_inj] at hlast
        exact hlast.symm
      subst hz'
      rw [show pathWeight (transform_map geod g ts) [a, z] =
        edgeWeight (transform_map geod g ts) a z from by simp [pathWeight]]
      rw [edgeWeight_zero_flow hz ht hd hY hX hedge]
    | c :: p'' =>
      have hlast' : (b :: c :: p'').getLast? = some z := by
        rwa [List.getLast?_cons_cons] at hlast
      have hrec := ih b z (by simp) (List.chain'_cons.mp hc).2
        (List.nodup_cons.mp hnd).2 hlast'
      have hw : pathWeight (transform_map geod g ts) (a :: b :: c :: p'') =
          edgeWeight (transform_map geod g ts) a b +
            pathWeight (transform_map geod g ts) (b :: c :: p'') := rfl
      -- decode the three relevant nodes
      obtain ⟨ys, xs, yd, xd, hys, hxs, hyd, hxd, -, ha, hb, -⟩ :=
        hasEdge_elim hY hX hedge
      have hzmem : z ∈ nodeList (transform_map geod g ts) := by
        have hzin : z ∈ b :: c :: p'' := List.mem_of_mem_getLast? hlast'
        exact chain'_mem_nodeList (a :: b :: c :: p'') (by simp) hc z
          (List.mem_cons_of_mem a hzin)
      obtain ⟨yz, xz, hyz, hxz, hzenc⟩ := nodeList_transform_elim hzmem
      have hda : decode_node_id a = (ys, xs) := by
        rw [ha]; exact decode_encode ys xs (by omega) (by omega)
      have hdb : decode_node_id b = (yd, xd) := by
        rw [hb]; exact decode_encode yd xd (by omega) (by omega)
      have hdz : decode_node_id z = (yz, xz) := by
        rw [hzenc]; exact decode_encode yz xz (by omega) (by omega)
      -- distinctness of the three cells
      have hab' : a ≠ b := by
        intro hcon
        exact (List.nodup_cons.mp hnd).1 (hcon ▸ List.mem_cons_self b _)
      have hzin : z ∈ c :: p'' := by
        have h := hlast'
        rw [List.getLast?_cons_cons] at h
        exact List.mem_of_mem_getLast? h
      have hbz : b ≠ z := by
        intro hcon
        exact (List.nodup_cons.mp (List.nodup_cons.mp hnd).2).1
          (hcon ▸ hzin)
      have haz : a ≠ z := by
        intro hcon
        exact (List.nodup_cons.mp hnd).1
          (hcon ▸ List.mem_cons_of_mem b hzin)
      have hcab : (ys, xs) ≠ (yd, xd) := by
        intro hcon
        apply hab'
        rw [ha, hb]
        rw [show ys = yd from congrArg Prod.fst hcon,
          show xs = xd from congrArg Prod.snd hcon]
      have hcbz : (yd, xd) ≠ (yz, xz) := by
        intro hcon
        apply hbz
        rw [hb, hzenc]
        rw [show yd = yz from congrArg Prod.fst hcon,
          show xd = xz from congrArg Prod.snd hcon]
      have hcaz : (ys, xs) ≠ (yz, xz) := by
        intro hcon
        apply haz
        rw [ha, hzenc]
        rw [show ys = yz from congrArg Prod.fst hcon,
          show xs = xz from congrArg Prod.snd hcon]
      have htriangle := htri (ys, xs) (yd, xd) (yz, xz) hys hxs hyd hxd
        hyz hxz hcab hcbz hcaz
      have hEW := edgeWeight_zero_flow hz ht hd hY hX hedge
      rw [hw, hda, hdz]
      rw [hEW, hda, hdb]
      rw [hdb, hdz] at hrec
      have hdiv : cellDist geod g (ys, xs) (yz, xz) / ts <
          cellDist geod g (ys, xs) (yd, xd) / ts +
            cellDist geod g (yd, xd) (yz, xz) / ts := by
        rw [div_add_div_same]
        exact div_lt_div_of_pos_right htriangle ht
      linarith

/-- On a zero-flow grid the one-hop path along an existing edge is strictly
lighter than every other simple path between its endpoints. -/
lemma zero_flow_unique_min {geod : GeodesyService} {g : Grid} {ts : ℝ}
    (hz : ∀ y x, g.currents y x = (0, 0)) (ht : 0 < ts)
    (hd : ∀ p q r s : ℝ, 0 ≤ geod.dist p q r s)
    (hY : g.ydim ≤ 2 ^ 32) (hX : g.xdim ≤ 2 ^ 32)
    (htri : StrictTriangle geod g) {ys xs yd xd : ℕ}
    (hys : ys < g.ydim) (hxs : xs < g.xdim) (hyd : yd < g.ydim)
    (hxd : xd < g.xdim) (hadj : kingAdj ys xs yd xd) :
    ∀ q, IsSimplePath (transform_map geod g ts) (encode_node_id ys xs)
        (encode_node_id yd xd) q →
      q ≠ [encode_node_id ys xs, encode_node_id yd xd] →
      pathWeight (transform_map geod g ts)
          [encode_node_id ys xs, encode_node_id yd xd] <
        pathWeight (transform_map geod g ts) q := by
  have hcells : (ys, xs) ≠ (yd, xd) := by
    intro hcon
    exact hadj.2.2.2.2 ⟨congrArg Prod.fst hcon, congrArg Prod.snd hcon⟩
  have hSD : encode_node_id ys xs ≠ encode_node_id yd xd := by
    intro hcon
    obtain ⟨h1, h2⟩ := encode_injective (by omega) (by omega) (by omega)
      (by omega) hcon
    exact hcells (by rw [h1, h2])
  have hedgeSD : hasEdge (transform_map geod g ts) (encode_node_id ys xs)
      (encode_node_id yd xd) :=
    ⟨mkEdge geod g ts ys xs yd xd,
      mem_transform_map_iff.mpr
        ⟨ys, xs, yd, xd, hys, hxs, hyd, hxd, hadj, rfl⟩,
      mkEdge_src geod g ts ys xs yd xd,
      mkEdge_dest geod g ts ys xs yd xd⟩
  have hdS : decode_node_id (encode_node_id ys xs) = (ys, xs) :=
    decode_encode ys xs (by omega) (by omega)
  have hdD : decode_node_id (encode_node_id yd xd) = (yd, xd) :=
    decode_encode yd xd (by omega) (by omega)
  have hWSD : pathWeight (transform_map geod g ts)
      [encode_node_id ys xs, encode_node_id yd xd] =
      cellDist geod g (ys, xs) (yd, xd) / ts := by
    rw [pathWeight_pair, edgeWeight_zero_flow hz ht hd hY hX hedgeSD, hdS,
      hdD]
  intro q hq hne
  obtain ⟨hh, hl, hnd, hc⟩ := hq
  match q with
  | [] => simp at hh
  | [x] =>
    have h1 : x = encode_node_id ys xs := by simpa using hh
    have h2 : x = encode_node_id yd xd := by simpa using hl
    exact absurd (h1 ▸ h2) hSD
  | [x, y] =>
    have h1 : x = encode_node_id ys xs := by simpa using hh
    have h2 : y = encode_node_id yd xd := by simpa using hl
    exact absurd (by rw [h1, h2]) hne
  | x :: y :: w :: rest =>
    have h1 : x = encode_node_id ys xs := by simpa using hh
    subst h1
    have hedgeSy : hasEdge (transform_map geod g ts)
        (encode_node_id ys xs) y := (List.chain'_cons.mp hc).1
    have hlast' : (y :: w :: rest).getLast? = some (encode_node_id yd xd) := by
      rw [List.getLast?_cons_cons] at hl
      exact hl
    have hrec := pathWeight_lower_bound hz ht hd hY hX htri (w :: rest) y
      (encode_node_id yd xd) (by simp) (List.chain'_cons.mp hc).2
      (List.nodup_cons.mp hnd).2 hlast'
    -- identify the cell of `y`
    obtain ⟨ys', xs', yd', xd', hys', hxs', hyd', hxd', -, hxeq, hyenc, -⟩ :=
      hasEdge_elim hY hX hedgeSy
    obtain ⟨hyy, hxx⟩ := encode_injective (by omega) (by omega) (by omega)
      (by omega) hxeq
    have hdy : decode_node_id y = (yd', xd') := by
      rw [hyenc]; exact decode_encode yd' xd' (by omega) (by omega)
    -- the three cells are pairwise distinct
    have hxy : encode_node_id ys xs ≠ y := by
      intro hcon
      exact (List.nodup_cons.mp hnd).1 (hcon ▸ List.mem_cons_self y _)
    have hDin : encode_node_id yd xd ∈ w :: rest := by
      have h := hlast'
      rw [List.getLast?_cons_cons] at h
      exact List.mem_of_mem_getLast? h
    have hyD : y ≠ encode_node_id yd xd := by
      intro hcon
      exact (List.nodup_cons.mp (List.nodup_cons.mp hnd).2).1 (hcon ▸ hDin)
    have hcSy : (ys, xs) ≠ (yd', xd') := by
      intro hcon
      apply hxy
      injection hcon with e1 e2
      rw [hyenc, ← e1, ← e2]
    have hcyD : (yd', xd') ≠ (yd, xd) := by
      intro hcon
      apply hyD
      injection hcon with e1 e2
      rw [hyenc, e1, e2]
    have htriangle := htri (ys, xs) (yd', xd') (yd, xd) hys hxs hyd' hxd'
      hyd hxd hcSy hcyD hcells
    have hEWSy : edgeWeight (transform_map geod g ts)
        (encode_node_id ys xs) y =
        cellDist geod g (ys, xs) (yd', xd') / ts := by
      rw [edgeWeight_zero_flow hz ht hd hY hX hedgeSy, hdS, hdy]
    have hwq : pathWeight (transform_map geod g ts)
        (encode_node_id ys xs :: y :: w :: rest) =
        edgeWeight (transform_map geod g ts) (encode_node_id ys xs) y +
          pathWeight (transform_map geod g ts) (y :: w :: rest) := rfl
    rw [hdy, hdD] at hrec
    rw [hWSD, hwq, hEWSy]
    have hdiv : cellDist geod g (ys, xs) (yd, xd) / ts <
        cellDist geod g (ys, xs) (yd', xd') / ts +
          cellDist geod g (yd', xd') (yd, xd) / ts := by
      rw [div_add_div_same]
      exact div_lt_div_of_pos_right htriangle ht
    linarith

/-- On a zero-flow grid, Dijkstra between two adjacent cells returns the
direct two-node path. -/
lemma zero_flow_dijkstra {geod : GeodesyService} {g : Grid} {ts : ℝ}
    (hz : ∀ y x, g.currents y x = (0, 0)) (ht : 0 < ts)
    (hd : ∀ p q r s : ℝ, 0 ≤ geod.dist p q r s)
    (hY : g.ydim ≤ 2 ^ 32) (hX : g.xdim ≤ 2 ^ 32)
    (htri : StrictTriangle geod g) {ys xs yd xd : ℕ}
    (hys : ys < g.ydim) (hxs : xs < g.xdim) (hyd : yd < g.ydim)
    (hxd : xd < g.xdim) (hadj : kingAdj ys xs yd xd) :
    dijkstra_path (transform_map geod g ts) (encode_node_id ys xs)
        (encode_node_id yd xd) =
      .ok [encode_node_id ys xs, encode_node_id yd xd] := by
  have hcells : (ys, xs) ≠ (yd, xd) := by
    intro hcon
    exact hadj.2.2.2.2 ⟨congrArg Prod.fst hcon, congrArg Prod.snd hcon⟩
  have hSD : encode_node_id ys xs ≠ encode_node_id yd xd := by
    intro hcon
    obtain ⟨h1, h2⟩ := encode_injective (by omega) (by omega) (by omega)
      (by omega) hcon
    exact hcells (by rw [h1, h2])
  have hedgeSD : hasEdge (transform_map geod g ts) (encode_node_id ys xs)
      (encode_node_id yd xd) :=
    ⟨mkEdge geod g ts ys xs yd xd,
      mem_transform_map_iff.mpr
        ⟨ys, xs, yd, xd, hys, hxs, hyd, hxd, hadj, rfl⟩,
      mkEdge_src geod g ts ys xs yd xd,
      mkEdge_dest geod g ts ys xs yd xd⟩
  have hsmem : encode_node_id ys xs ∈
      nodeList (transform_map geod g ts) := by
    obtain ⟨e, he, hesrc, -⟩ := hedgeSD
    exact hesrc ▸ src_mem_nodeList he
  apply dijkstra_unique
  · exact hsmem
  · exact fun hcon => hSD hcon.symm
  · exact ⟨rfl, by simp, by simp [hSD],
      List.chain'_cons.mpr ⟨hedgeSD, by simp⟩⟩
  · exact zero_flow_unique_min hz ht hd hY hX htri hys hxs hyd hxd hadj

/-! ## Helper lemmas: the verbose flag -/

/-- The edge component of the build loop ignores the progress state. -/
lemma buildLoop_edges (geod : GeodesyService) (g : Grid) (ts : ℝ)
    (verbose : Bool) (total : ℕ) :
    ∀ (cells : List (ℕ × ℕ)) (acc : List Edge × ℕ × List (ℕ × ℕ)),
      (cells.foldl (buildStep geod g ts verbose total) acc).1 =
        acc.1 ++ cells.flatMap (fun c => get_neighbors geod g ts c.1 c.2) := by
  intro cells
  induction cells with
  | nil => intro acc; simp
  | cons c cells ih =>
    intro acc
    rw [List.foldl_cons, ih, List.flatMap_cons]
    simp [buildStep, List.append_assoc]

/-- Either value of the verbose flag produces the graph of
`transform_map`. -/
lemma transform_map_verbose_fst (geod : GeodesyService) (g : Grid) (ts : ℝ)
    (verbose : Bool) :
    (transform_map_verbose geod g ts verbose).1 = transform_map geod g ts := by
  rw [transform_map_verbose, transform_map]
  rw [buildLoop_edges]
  simp

/-! ## Helper lemmas: resolved query points are graph nodes -/

/-- The nearest-point scan only ever returns the running best or a later
index, all below `i + rest.length`. -/
lemma queryAux_lt (p : ℝ × ℝ) :
    ∀ (rest : List (ℝ × ℝ)) (i best : ℕ) (bestd : ℝ), best < i →
      queryAux p rest i best bestd < i + rest.length := by
  intro rest
  induction rest with
  | nil =>
    intro i best bestd h
    simpa [queryAux] using h
  | cons q rest ih =>
    intro i best bestd h
    simp only [queryAux, List.length_cons]
    by_cases hlt : sqDist p q < bestd
    · rw [if_pos hlt]
      have h2 := ih (i + 1) i (sqDist p q) (Nat.lt_succ_self i)
      omega
    · rw [if_neg hlt]
      have h2 := ih (i + 1) best bestd (by omega)
      omega

/-- A query against a non-empty KD-tree returns an in-range flat index. -/
lemma query_lt_length (t : KDTree) (p : ℝ × ℝ) (h : t.pts ≠ []) :
    t.query p < t.pts.length := by
  rw [KDTree.query]
  rcases hpts : t.pts with _ | ⟨q, rest⟩
  · exact absurd hpts h
  · show queryAux p rest 1 0 (sqDist p q) < (q :: rest).length
    have h2 := queryAux_lt p rest 1 0 (sqDist p q) (by omega)
    simp only [List.length_cons]
    omega

/-- In a freshly built engine on a grid with at least two cells, every
resolved query point is a node of the current graph: the missing-node
branch of the router cannot fire through the public query. -/
lemma init_resolved_node (geod : GeodesyService) (g : Grid) (ts : ℝ)
    (p : ℝ × ℝ) (h2 : 2 ≤ g.ydim * g.xdim) :
    encode_node_id (geo_idx (init geod ts g) p).1
        (geo_idx (init geod ts g) p).2 ∈
      nodeList (init geod ts g).nav_graph := by
  have hX : 0 < g.xdim := by
    rcases Nat.eq_zero_or_pos g.xdim with h | h
    · rw [h, Nat.mul_zero] at h2; omega
    · exact h
  have hlen : (init geod ts g).kdtree.pts.length = g.ydim * g.xdim := by
    show (List.map (fun c => g.latlons c.1 c.2)
      (cellList g.ydim g.xdim)).length = g.ydim * g.xdim
    rw [List.length_map, length_cellList]
  have hne : (init geod ts g).kdtree.pts ≠ [] := by
    intro hcon
    rw [hcon] at hlen
    have h0 : (0 : ℕ) = g.ydim * g.xdim := by simpa using hlen
    rw [← h0] at h2
    exact absurd h2 (by norm_num)
  have hq : (init geod ts g).kdtree.query p < g.ydim * g.xdim := by
    rw [← hlen]
    exact query_lt_length _ p hne
  have hgeo : geo_idx (init geod ts g) p =
      ((init geod ts g).kdtree.query p / g.xdim,
        (init geod ts g).kdtree.query p % g.xdim) := rfl
  rw [hgeo]
  refine (mem_nodeList_transform_iff h2).mpr ⟨_, _, ?_, ?_, rfl⟩
  · exact (Nat.div_lt_iff_lt_mul hX).mpr hq
  · exact Nat.mod_lt _ hX

/-! ## Concrete fixtures -/

/-- Test geodesy oracle: constant forward azimuth `45`, constant distance
`1` (a metric-like oracle: non-negative with strict triangle inequality on
distinct points). -/
def geod0 : GeodesyService := ⟨fun _ _ _ _ => 45, fun _ _ _ _ => 1⟩

/-- Test geodesy oracle with azimuth `0` (due north), distance `1`. -/
def geodN : GeodesyService := ⟨fun _ _ _ _ => 0, fun _ _ _ _ => 1⟩

/-- A 2×2 grid at unit spacing with zero flow. -/
def grid0 : Grid :=
  { ydim := 2, xdim := 2
    latlons := fun y x => ((y : ℝ), (x : ℝ))
    currents := fun _ _ => (0, 0) }

/-- The engine built on `grid0`. -/
noncomputable def m0 : NavModule := init geod0 1 grid0

/-- A 1×1 grid.  No engine fixture is built on it: `__init__` on this grid
raises inside `_get_neighbors` (see `transform_map_checked_grid1`). -/
def grid1 : Grid :=
  { ydim := 1, xdim := 1
    latlons := fun _ _ => (0, 0)
    currents := fun _ _ => (0, 0) }

/-- A 1×2 grid whose cell (0,0) sits at (0,0) and cell (0,1) at (9,9). -/
def gridA : Grid :=
  { ydim := 1, xdim := 2
    latlons := fun _ x => if x = 0 then ((0 : ℝ), (0 : ℝ)) else (9, 9)
    currents := fun _ _ => (0, 0) }

/-- The same shape as `gridA` with the two coordinates swapped. -/
def gridB : Grid :=
  { ydim := 1, xdim := 2
    latlons := fun _ x => if x = 0 then ((9 : ℝ), (9 : ℝ)) else (0, 0)
    currents := fun _ _ => (0, 0) }

/-- A 1×2 grid with different currents in its two cells. -/
def gridC : Grid :=
  { ydim := 1, xdim := 2
    latlons := fun _ x => ((0 : ℝ), (x : ℝ))
    currents := fun _ x => if x = 0 then ((0 : ℝ), (0 : ℝ)) else (0, 3) }

lemma cellList_22 : cellList 2 2 = [(0, 0), (0, 1), (1, 0), (1, 1)] := by
  decide

lemma build_tree_grid0 :
    (build_tree grid0).pts = [((0 : ℝ), (0 : ℝ)), (0, 1), (1, 0), (1, 1)] := by
  have h : cellList grid0.ydim grid0.xdim = [(0, 0), (0, 1), (1, 0), (1, 1)] := by
    decide
  rw [build_tree, h]
  simp [grid0]

lemma m0_kdtree : m0.kdtree = build_tree grid0 := rfl

lemma m0_kdtree' :
    m0.kdtree = KDTree.mk [((0 : ℝ), (0 : ℝ)), (0, 1), (1, 0), (1, 1)] := by
  rw [m0_kdtree, show build_tree grid0 = KDTree.mk (build_tree grid0).pts
    from rfl, build_tree_grid0]

lemma geo_idx_m0_00 : geo_idx m0 (0, 0) = (0, 0) := by
  rw [geo_idx, m0_kdtree']
  norm_num [KDTree.query, queryAux, sqDist, unravel_index]

lemma geo_idx_m0_11 : geo_idx m0 (1, 1) = (1, 1) := by
  rw [geo_idx, m0_kdtree']
  norm_num [KDTree.query, queryAux, sqDist, unravel_index]
  exact ⟨rfl, rfl⟩

/-! ## Claims -/

/-- C3: for every in-bounds `(row, col)` (the two 32-bit fields of
`struct.pack('II', ...)` bound the grid), decoding the encoded node id
returns exactly `(row, col)`, and encoding is injective: distinct in-bounds
pairs give distinct node ids. -/
theorem C3_node_id_bijection :
    (∀ y x : ℕ, y < 2 ^ 32 → x < 2 ^ 32 →
      decode_node_id (encode_node_id y x) = (y, x)) ∧
      ∀ y x y' x' : ℕ, y < 2 ^ 32 → x < 2 ^ 32 → y' < 2 ^ 32 → x' < 2 ^ 32 →
        (y, x) ≠ (y', x') → encode_node_id y x ≠ encode_node_id y' x' := by
  refine ⟨fun y x hy hx => decode_encode y x hy hx, ?_⟩
  intro y x y' x' hy hx hy' hx' hne hcon
  obtain ⟨h1, h2⟩ := encode_injective hy hx hy' hx' hcon
  exact hne (by rw [h1, h2])

/-- Witness for C3 at a concrete in-bounds pair. -/
theorem C3_node_id_bijection_witness :
    decode_node_id (encode_node_id 3 70000) = (3, 70000) ∧
      encode_node_id 3 70000 ≠ encode_node_id 70000 3 :=
  ⟨C3_node_id_bijection.1 3 70000 (by norm_num) (by norm_num),
   C3_node_id_bijection.2 3 70000 70000 3 (by norm_num) (by norm_num)
     (by norm_num) (by norm_num) (by decide)⟩

/-- C6: on a grid with at least two rows and two columns, the neighbor
computation yields exactly 8 entries for interior cells, exactly 3 for each
corner, exactly 5 for non-corner edge cells, and every returned neighbor is
in bounds. -/
theorem C6_neighbor_counts (Y X : ℕ) (hY : 2 ≤ Y) (hX : 2 ≤ X) :
    (∀ ys xs : ℤ, 1 ≤ ys → ys + 1 < Y → 1 ≤ xs → xs + 1 < X →
      (valid_neighbors ys xs Y X).length = 8) ∧
    ((valid_neighbors 0 0 Y X).length = 3 ∧
      (valid_neighbors 0 ((X : ℤ) - 1) Y X).length = 3 ∧
      (valid_neighbors ((Y : ℤ) - 1) 0 Y X).length = 3 ∧
      (valid_neighbors ((Y : ℤ) - 1) ((X : ℤ) - 1) Y X).length = 3) ∧
    (∀ xs : ℤ, 1 ≤ xs → xs + 1 < X →
      (valid_neighbors 0 xs Y X).length = 5 ∧
      (valid_neighbors ((Y : ℤ) - 1) xs Y X).length = 5) ∧
    (∀ ys : ℤ, 1 ≤ ys → ys + 1 < Y →
      (valid_neighbors ys 0 Y X).length = 5 ∧
      (valid_neighbors ys ((X : ℤ) - 1) Y X).length = 5) ∧
    (∀ ys xs : ℤ, ∀ c ∈ valid_neighbors ys xs Y X,
      0 ≤ c.1 ∧ c.1 < (Y : ℤ) ∧ 0 ≤ c.2 ∧ c.2 < (X : ℤ)) := by
  refine ⟨fun ys xs h1 h2 h3 h4 => valid_len_interior Y X ys xs h1 h2 h3 h4,
    ⟨valid_len_corner00 Y X hY hX, valid_len_corner0X Y X hY hX,
      valid_len_cornerY0 Y X hY hX, valid_len_cornerYX Y X hY hX⟩,
    fun xs h3 h4 => ⟨valid_len_edge_top Y X xs hY h3 h4,
      valid_len_edge_bottom Y X xs hY h3 h4⟩,
    fun ys h1 h2 => ⟨valid_len_edge_left Y X ys hX h1 h2,
      valid_len_edge_right Y X ys hX h1 h2⟩,
    fun ys xs c hc => ?_⟩
  exact ((mem_valid_iff ys xs Y X c).mp hc).2

/-- Witness for C6 on a 3×3 grid: interior, corner and edge counts. -/
theorem C6_neighbor_counts_witness :
    (valid_neighbors 1 1 3 3).length = 8 ∧
      (valid_neighbors 0 0 3 3).length = 3 ∧
      (valid_neighbors 0 1 3 3).length = 5 := by
  have h := C6_neighbor_counts 3 3 (by norm_num) (by norm_num)
  exact ⟨h.1 1 1 (by norm_num) (by norm_num) (by norm_num) (by norm_num),
    h.2.1.1, (h.2.2.1 1 (by norm_num) (by norm_num)).1⟩

/-- C2: every edge weight equals
`sqrt((d/timestep·sin θ − u_flow)² + (d/timestep·cos θ − v_flow)²)` with
`θ` the raw forward azimuth and `(u_flow, v_flow)` the source cell's
current; every weight is non-negative; and with a zero flow field every
weight is the required ground speed `d / timestep`. -/
theorem C2_edge_cost (geod : GeodesyService) (g : Grid) (ts : ℝ)
    (ht : 0 < ts) (hd : ∀ p q r s : ℝ, 0 ≤ geod.dist p q r s) :
    (∀ e ∈ transform_map geod g ts,
      (∃ ys xs yd xd : ℕ, ys < g.ydim ∧ xs < g.xdim ∧ yd < g.ydim ∧
        xd < g.xdim ∧ kingAdj ys xs yd xd ∧
        e.src = encode_node_id ys xs ∧ e.dest = encode_node_id yd xd ∧
        e.weight = Real.sqrt
          ((geod.dist (g.latlons ys xs).2 (g.latlons ys xs).1
              (g.latlons yd xd).2 (g.latlons yd xd).1 / ts *
            Real.sin (geod.az (g.latlons ys xs).2 (g.latlons ys xs).1
              (g.latlons yd xd).2 (g.latlons yd xd).1 * (Real.pi / 180)) -
            (g.currents ys xs).1) ^ 2 +
          (geod.dist (g.latlons ys xs).2 (g.latlons ys xs).1
              (g.latlons yd xd).2 (g.latlons yd xd).1 / ts *
            Real.cos (geod.az (g.latlons ys xs).2 (g.latlons ys xs).1
              (g.latlons yd xd).2 (g.latlons yd xd).1 * (Real.pi / 180)) -
            (g.currents ys xs).2) ^ 2)) ∧
      0 ≤ e.weight) ∧
    ((∀ y x, g.currents y x = (0, 0)) → ∀ e ∈ transform_map geod g ts,
      ∃ ys xs yd xd : ℕ, ys < g.ydim ∧ xs < g.xdim ∧ yd < g.ydim ∧
        xd < g.xdim ∧ kingAdj ys xs yd xd ∧
        e.src = encode_node_id ys xs ∧ e.dest = encode_node_id yd xd ∧
        e.weight = geod.dist (g.latlons ys xs).2 (g.latlons ys xs).1
          (g.latlons yd xd).2 (g.latlons yd xd).1 / ts) := by
  constructor
  · intro e he
    obtain ⟨ys, xs, yd, xd, hys, hxs, hyd, hxd, hadj, rfl⟩ :=
      mem_transform_map_iff.mp he
    refine ⟨⟨ys, xs, yd, xd, hys, hxs, hyd, hxd, hadj,
      mkEdge_src geod g ts ys xs yd xd, mkEdge_dest geod g ts ys xs yd xd,
      ?_⟩, mkEdge_weight_nonneg geod g ts ys xs yd xd⟩
    rw [mkEdge_weight, mkEdge_azimuth, sin_pymod, cos_pymod]
  · intro hz e he
    obtain ⟨ys, xs, yd, xd, hys, hxs, hyd, hxd, hadj, rfl⟩ :=
      mem_transform_map_iff.mp he
    exact ⟨ys, xs, yd, xd, hys, hxs, hyd, hxd, hadj,
      mkEdge_src geod g ts ys xs yd xd, mkEdge_dest geod g ts ys xs yd xd,
      mkEdge_weight_zero_flow (hz ys xs) ht (hd _ _ _ _)⟩

/-- Witness for C2 on the concrete zero-flow 2×2 grid. -/
theorem C2_edge_cost_witness :
    (0 : ℝ) < 1 ∧ ∀ e ∈ transform_map geod0 grid0 1, 0 ≤ e.weight := by
  have h := C2_edge_cost geod0 grid0 1 (by norm_num)
    (fun _ _ _ _ => by norm_num [geod0])
  exact ⟨by norm_num, fun e he => (h.1 e he).2⟩

lemma edgeWeight_gridC_fwd :
    edgeWeight (transform_map geodN gridC 1) (encode_node_id 0 0)
      (encode_node_id 0 1) = 1 := by
  rw [edgeWeight_transform geodN gridC 1 (by norm_num [gridC])
    (by norm_num [gridC]) (by norm_num [gridC]) (by norm_num [gridC])
    (by norm_num [gridC]) (by norm_num [gridC]) (by decide)]
  rw [mkEdge_weight, mkEdge_azimuth]
  norm_num [geodN, gridC, pymod, Real.sqrt_one]

lemma edgeWeight_gridC_rev :
    edgeWeight (transform_map geodN gridC 1) (encode_node_id 0 1)
      (encode_node_id 0 0) = 2 := by
  rw [edgeWeight_transform geodN gridC 1 (by norm_num [gridC])
    (by norm_num [gridC]) (by norm_num [gridC]) (by norm_num [gridC])
    (by norm_num [gridC]) (by norm_num [gridC]) (by decide)]
  rw [mkEdge_weight, mkEdge_azimuth]
  have h2 : (2 : ℝ) = Real.sqrt (2 ^ 2) :=
    (Real.sqrt_sq (by norm_num : (0 : ℝ) ≤ 2)).symm
  rw [h2]
  congr 1
  norm_num [geodN, gridC, pymod]

/-- C7: every stored azimuth is the geodesic forward azimuth normalized
into `[0, 360)`; the two opposite directed edges of an adjacent pair each
use their own source cell's current in the cost, and a concrete pair shows
the two directions can carry different costs. -/
theorem C7_azimuth_and_source_flow (geod : GeodesyService) (g : Grid)
    (ts : ℝ) (hY : g.ydim ≤ 2 ^ 32) (hX : g.xdim ≤ 2 ^ 32) :
    (∀ e ∈ transform_map geod g ts,
      (∃ ys xs yd xd : ℕ, ys < g.ydim ∧ xs < g.xdim ∧ yd < g.ydim ∧
        xd < g.xdim ∧ kingAdj ys xs yd xd ∧
        e.src = encode_node_id ys xs ∧ e.dest = encode_node_id yd xd ∧
        e.azimuth = pymod (geod.az (g.latlons ys xs).2 (g.latlons ys xs).1
          (g.latlons yd xd).2 (g.latlons yd xd).1) 360) ∧
      0 ≤ e.azimuth ∧ e.azimuth < 360) ∧
    (∀ ys xs yd xd : ℕ, ys < g.ydim → xs < g.xdim → yd < g.ydim →
      xd < g.xdim → kingAdj ys xs yd xd →
      edgeWeight (transform_map geod g ts) (encode_node_id ys xs)
          (encode_node_id yd xd) =
        Real.sqrt
          ((geod.dist (g.latlons ys xs).2 (g.latlons ys xs).1
              (g.latlons yd xd).2 (g.latlons yd xd).1 / ts *
            Real.sin (pymod (geod.az (g.latlons ys xs).2 (g.latlons ys xs).1
              (g.latlons yd xd).2 (g.latlons yd xd).1) 360 * (Real.pi / 180)) -
            (g.currents ys xs).1) ^ 2 +
          (geod.dist (g.latlons ys xs).2 (g.latlons ys xs).1
              (g.latlons yd xd).2 (g.latlons yd xd).1 / ts *
            Real.cos (pymod (geod.az (g.latlons ys xs).2 (g.latlons ys xs).1
              (g.latlons yd xd).2 (g.latlons yd xd).1) 360 * (Real.pi / 180)) -
            (g.currents ys xs).2) ^ 2) ∧
      edgeWeight (transform_map geod g ts) (encode_node_id yd xd)
          (encode_node_id ys xs) =
        Real.sqrt
          ((geod.dist (g.latlons yd xd).2 (g.latlons yd xd).1
              (g.latlons ys xs).2 (g.latlons ys xs).1 / ts *
            Real.sin (pymod (geod.az (g.latlons yd xd).2 (g.latlons yd xd).1
              (g.latlons ys xs).2 (g.latlons ys xs).1) 360 * (Real.pi / 180)) -
            (g.currents yd xd).1) ^ 2 +
          (geod.dist (g.latlons yd xd).2 (g.latlons yd xd).1
              (g.latlons ys xs).2 (g.latlons ys xs).1 / ts *
            Real.cos (pymod (geod.az (g.latlons yd xd).2 (g.latlons yd xd).1
              (g.latlons ys xs).2 (g.latlons ys xs).1) 360 * (Real.pi / 180)) -
            (g.currents yd xd).2) ^ 2)) ∧
    edgeWeight (transform_map geodN gridC 1) (encode_node_id 0 0)
        (encode_node_id 0 1) ≠
      edgeWeight (transform_map geodN gridC 1) (encode_node_id 0 1)
        (encode_node_id 0 0) := by
  refine ⟨?_, ?_, ?_⟩
  · intro e he
    obtain ⟨ys, xs, yd, xd, hys, hxs, hyd, hxd, hadj, rfl⟩ :=
      mem_transform_map_iff.mp he
    refine ⟨⟨ys, xs, yd, xd, hys, hxs, hyd, hxd, hadj,
      mkEdge_src geod g ts ys xs yd xd, mkEdge_dest geod g ts ys xs yd xd,
      mkEdge_azimuth geod g ts ys xs yd xd⟩, ?_, ?_⟩
    · rw [mkEdge_azimuth]; exact pymod_nonneg _
    · rw [mkEdge_azimuth]; exact pymod_lt _
  · intro ys xs yd xd hys hxs hyd hxd hadj
    have hadj' : kingAdj yd xd ys xs := by
      unfold kingAdj at hadj ⊢
      omega
    constructor
    · rw [edgeWeight_transform geod g ts hY hX hys hxs hyd hxd hadj,
        mkEdge_weight, mkEdge_azimuth]
    · rw [edgeWeight_transform geod g ts hY hX hyd hxd hys hxs hadj',
        mkEdge_weight, mkEdge_azimuth]
  · rw [edgeWeight_gridC_fwd, edgeWeight_gridC_rev]
    norm_num

/-- Witness for C7: azimuth bounds at a concrete edge and the concrete
asymmetric pair. -/
theorem C7_azimuth_and_source_flow_witness :
    (0 ≤ (mkEdge geod0 grid0 1 0 0 1 1).azimuth ∧
      (mkEdge geod0 grid0 1 0 0 1 1).azimuth < 360) ∧
      edgeWeight (transform_map geodN gridC 1) (encode_node_id 0 0)
          (encode_node_id 0 1) ≠
        edgeWeight (transform_map geodN gridC 1) (encode_node_id 0 1)
          (encode_node_id 0 0) := by
  have h := C7_azimuth_and_source_flow geod0 grid0 1
    (by norm_num [grid0]) (by norm_num [grid0])
  have h2 := C7_azimuth_and_source_flow geodN gridC 1
    (by norm_num [gridC]) (by norm_num [gridC])
  have hmem : mkEdge geod0 grid0 1 0 0 1 1 ∈ transform_map geod0 grid0 1 :=
    mem_transform_map_iff.mpr ⟨0, 0, 1, 1, by norm_num [grid0],
      by norm_num [grid0], by norm_num [grid0], by norm_num [grid0],
      by decide, rfl⟩
  exact ⟨(h.1 _ hmem).2, h2.2.2⟩

/-- C10: the verbose flag influences only the progress output; the built
graph, and hence every routing query, is identical for both values of the
flag. -/
theorem C10_verbose_no_influence (geod : GeodesyService) (g : Grid)
    (ts : ℝ) :
    (transform_map_verbose geod g ts true).1 =
      (transform_map_verbose geod g ts false).1 ∧
    (∀ b : Bool,
      (transform_map_verbose geod g ts b).1 = transform_map geod g ts) ∧
    (∀ (b : Bool) (kdt : KDTree) (p q : ℝ × ℝ),
      get_next_azimuth
          ⟨ts, g, (transform_map_verbose geod g ts b).1, kdt⟩ p q =
        get_next_azimuth ⟨ts, g, transform_map geod g ts, kdt⟩ p q) := by
  refine ⟨?_, fun b => transform_map_verbose_fst geod g ts b,
    fun b kdt p q => ?_⟩
  · rw [transform_map_verbose_fst, transform_map_verbose_fst]
  · rw [transform_map_verbose_fst]

/-- On the 1×1 grid the (sole) cell has no valid neighbors, so the build
loop raises `IndexError` at its first iteration and never yields a
graph. -/
lemma transform_map_checked_grid1 :
    transform_map_checked geod0 grid1 1 = .error .indexError := by
  have hgn : get_neighbors_checked geod0 grid1 1 0 0 =
      .error .indexError := by
    rw [get_neighbors_checked, if_pos (by decide)]
  have hstep : buildStepChecked geod0 grid1 1 (.ok []) (0, 0) =
      .error .indexError := by
    simp only [buildStepChecked, hgn]
  rw [transform_map_checked,
    show cellList grid1.ydim grid1.xdim = [(0, 0)] from by decide,
    List.foldl_cons, hstep, List.foldl_nil]

/-- C5 counterexample: on the 1×1 grid the builder raises `IndexError`
(the numpy slice `coords_adj[::,0]` of the empty neighbor array) and never
produces any graph — in particular no graph whose vertex set is the
in-bounds singleton `{encode(0,0)}`. -/
theorem C5_graph_shape_counterexample :
    transform_map_checked geod0 grid1 1 = .error .indexError ∧
      (∀ es : List Edge, transform_map_checked geod0 grid1 1 ≠ .ok es) ∧
      0 < grid1.ydim ∧ 0 < grid1.xdim := by
  refine ⟨transform_map_checked_grid1, ?_, by norm_num [grid1],
    by norm_num [grid1]⟩
  intro es
  rw [transform_map_checked_grid1]
  simp

/-- C5 (amended): for every grid with at least two cells the builder
succeeds (the checked builder returns exactly the `transform_map` edges)
and the produced graph's vertex set is exactly the set of encoded in-bounds
cells, its edges are exactly the 8-connected in-bounds adjacencies, it has
no self-loops, and the edge count is at most `8·Y·X`. -/
theorem C5_graph_shape (geod : GeodesyService) (g : Grid) (ts : ℝ)
    (hY : g.ydim ≤ 2 ^ 32) (hX : g.xdim ≤ 2 ^ 32)
    (h2 : 2 ≤ g.ydim * g.xdim) :
    transform_map_checked geod g ts = .ok (transform_map geod g ts) ∧
    (∀ n : NodeId, n ∈ nodeList (transform_map geod g ts) ↔
      ∃ y x, y < g.ydim ∧ x < g.xdim ∧ n = encode_node_id y x) ∧
    (∀ e ∈ transform_map geod g ts, ∃ ys xs yd xd : ℕ,
      ys < g.ydim ∧ xs < g.xdim ∧ yd < g.ydim ∧ xd < g.xdim ∧
      kingAdj ys xs yd xd ∧ e.src = encode_node_id ys xs ∧
      e.dest = encode_node_id yd xd) ∧
    (∀ ys xs yd xd : ℕ, ys < g.ydim → xs < g.xdim → yd < g.ydim →
      xd < g.xdim → kingAdj ys xs yd xd →
      hasEdge (transform_map geod g ts) (encode_node_id ys xs)
        (encode_node_id yd xd)) ∧
    (∀ e ∈ transform_map geod g ts, e.src ≠ e.dest) ∧
    (transform_map geod g ts).length ≤ 8 * (g.ydim * g.xdim) := by
  refine ⟨transform_map_checked_eq_ok h2,
    fun n => mem_nodeList_transform_iff h2, ?_, ?_,
    transform_map_no_self_loop hY hX, transform_map_length_le geod g ts⟩
  · intro e he
    obtain ⟨ys, xs, yd, xd, hys, hxs, hyd, hxd, hadj, rfl⟩ :=
      mem_transform_map_iff.mp he
    exact ⟨ys, xs, yd, xd, hys, hxs, hyd, hxd, hadj,
      mkEdge_src geod g ts ys xs yd xd, mkEdge_dest geod g ts ys xs yd xd⟩
  · intro ys xs yd xd hys hxs hyd hxd hadj
    exact ⟨mkEdge geod g ts ys xs yd xd,
      mem_transform_map_iff.mpr
        ⟨ys, xs, yd, xd, hys, hxs, hyd, hxd, hadj, rfl⟩,
      mkEdge_src geod g ts ys xs yd xd, mkEdge_dest geod g ts ys xs yd xd⟩

/-- Witness for C5 on the concrete 2×2 grid. -/
theorem C5_graph_shape_witness :
    transform_map_checked geod0 grid0 1 =
        .ok (transform_map geod0 grid0 1) ∧
      encode_node_id 0 1 ∈ nodeList (transform_map geod0 grid0 1) ∧
      (transform_map geod0 grid0 1).length ≤
        8 * (grid0.ydim * grid0.xdim) := by
  have h := C5_graph_shape geod0 grid0 1 (by norm_num [grid0])
    (by norm_num [grid0]) (by norm_num [grid0])
  exact ⟨h.1,
    (h.2.1 _).mpr ⟨0, 1, by norm_num [grid0], by norm_num [grid0], rfl⟩,
    h.2.2.2.2.2⟩

/-- When both query points resolve to the same (graph-present) cell, the
routing query dies on `shortest_path[1]` with an `IndexError`. -/
lemma same_cell_index_error (m : NavModule) (p q : ℝ × ℝ)
    (heq : geo_idx m p = geo_idx m q)
    (hs : encode_node_id (geo_idx m p).1 (geo_idx m p).2 ∈
      nodeList m.nav_graph) :
    get_next_azimuth m p q = .error .indexError := by
  simp only [get_next_azimuth]
  rw [← heq, dijkstra_self hs]
  rfl

/-- C4 (amended): a query whose source and destination resolve to the same
grid cell fails with the uncaught `IndexError` from `shortest_path[1]` (the
one-node path has no second entry), not with a `DegenerateRoute` result. -/
theorem C4_degenerate_route (m : NavModule) (p q : ℝ × ℝ)
    (heq : geo_idx m p = geo_idx m q)
    (hs : encode_node_id (geo_idx m p).1 (geo_idx m p).2 ∈
      nodeList m.nav_graph) :
    get_next_azimuth m p q = .error .indexError ∧
      get_next_azimuth m p q ≠ .error .degenerateRoute := by
  have h := same_cell_index_error m p q heq hs
  exact ⟨h, by rw [h]; simp⟩

lemma geo_idx_m0_node :
    encode_node_id (geo_idx m0 (0, 0)).1 (geo_idx m0 (0, 0)).2 ∈
      nodeList m0.nav_graph := by
  rw [geo_idx_m0_00]
  exact (mem_nodeList_transform_iff (by norm_num [grid0])).mpr
    ⟨0, 0, by norm_num [grid0], by norm_num [grid0], rfl⟩

/-- C4 counterexample: on the 2×2 engine with source = destination the
result is the `IndexError` failure, not a `DegenerateRoute` result (and not
a successful path). -/
theorem C4_degenerate_route_counterexample :
    get_next_azimuth m0 (0, 0) (0, 0) = .error .indexError ∧
      get_next_azimuth m0 (0, 0) (0, 0) ≠ .error .degenerateRoute ∧
      ∀ r, get_next_azimuth m0 (0, 0) (0, 0) ≠ .ok r := by
  have h := same_cell_index_error m0 (0, 0) (0, 0) rfl geo_idx_m0_node
  exact ⟨h, by rw [h]; simp, fun r => by rw [h]; simp⟩

/-- Witness for C4 at the concrete same-cell query. -/
theorem C4_degenerate_route_witness :
    get_next_azimuth m0 (0, 0) (0, 0) = .error .indexError ∧
      get_next_azimuth m0 (0, 0) (0, 0) ≠ .error .degenerateRoute :=
  C4_degenerate_route m0 (0, 0) (0, 0) rfl geo_idx_m0_node

/-- A destination that is not a node of the graph is unreachable. -/
lemma no_path_of_not_mem {G : List Edge} {s t : NodeId} (hts : t ≠ s)
    (ht : t ∉ nodeList G) : ¬∃ p, IsSimplePath G s t p := by
  rintro ⟨p, hp⟩
  have hl := hp.2.1
  exact ht (mem_nodeList_of_path hts hp t (List.mem_of_mem_getLast? hl))

/-- A missing source node surfaces as `NodeNotFound`. -/
lemma routing_error_not_mem (m : NavModule) (p q : ℝ × ℝ)
    (hs : encode_node_id (geo_idx m p).1 (geo_idx m p).2 ∉
      nodeList m.nav_graph) :
    get_next_azimuth m p q = .error .nodeNotFound := by
  simp only [get_next_azimuth]
  rw [dijkstra_not_mem hs]

/-- An unreached destination surfaces as `NoPathFound`. -/
lemma routing_error_no_path (m : NavModule) (p q : ℝ × ℝ)
    (hs : encode_node_id (geo_idx m p).1 (geo_idx m p).2 ∈
      nodeList m.nav_graph)
    (hts : ¬encode_node_id (geo_idx m q).1 (geo_idx m q).2 =
      encode_node_id (geo_idx m p).1 (geo_idx m p).2)
    (hnp : ¬∃ pa, IsSimplePath m.nav_graph
      (encode_node_id (geo_idx m p).1 (geo_idx m p).2)
      (encode_node_id (geo_idx m q).1 (geo_idx m q).2) pa) :
    get_next_azimuth m p q = .error .noPathFound := by
  simp only [get_next_azimuth]
  rw [dijkstra_no_path hs hts hnp]

/-- C8 (amended): the routing components surface search failures as
explicit errors — the query propagates the router's error unchanged, the
router reports `NoPathFound` when the search does not reach the destination
but `NodeNotFound` (not `NoPathFound`) when the source node is missing from
the graph — and in any engine freshly built on a grid with at least two
cells every resolved query point is a node of the current graph, so within
the program itself the missing-node branch never fires through the public
query. -/
theorem C8_routing_errors :
    (∀ (m : NavModule) (p q : ℝ × ℝ),
      (encode_node_id (geo_idx m p).1 (geo_idx m p).2 ∉
          nodeList m.nav_graph →
        get_next_azimuth m p q = .error .nodeNotFound) ∧
      (encode_node_id (geo_idx m p).1 (geo_idx m p).2 ∈
          nodeList m.nav_graph →
        ¬encode_node_id (geo_idx m q).1 (geo_idx m q).2 =
          encode_node_id (geo_idx m p).1 (geo_idx m p).2 →
        ¬(∃ pa, IsSimplePath m.nav_graph
          (encode_node_id (geo_idx m p).1 (geo_idx m p).2)
          (encode_node_id (geo_idx m q).1 (geo_idx m q).2) pa) →
        get_next_azimuth m p q = .error .noPathFound)) ∧
    (∀ (G : List Edge) (s t : NodeId), s ∉ nodeList G →
      dijkstra_path G s t = .error .nodeNotFound) ∧
    (∀ (geod : GeodesyService) (g : Grid) (ts : ℝ) (p : ℝ × ℝ),
      2 ≤ g.ydim * g.xdim →
      encode_node_id (geo_idx (init geod ts g) p).1
          (geo_idx (init geod ts g) p).2 ∈
        nodeList (init geod ts g).nav_graph) :=
  ⟨fun m p q => ⟨fun hs => routing_error_not_mem m p q hs,
      fun hs hts hnp => routing_error_no_path m p q hs hts hnp⟩,
   fun _ _ _ hs => dijkstra_not_mem hs,
   fun geod g ts p h2 => init_resolved_node geod g ts p h2⟩

/-- A hand-built engine state: two indexed coordinates, but a graph with a
single edge leading out of cell (0,0) to a node that is not the encoding of
cell (0,1), so cell (0,1) is unreachable. -/
def grid2 : Grid :=
  { ydim := 1, xdim := 2
    latlons := fun _ x => ((5 * x : ℝ), (5 * x : ℝ))
    currents := fun _ _ => (0, 0) }

def edge2 : Edge :=
  { src := encode_node_id 0 0, dest := encode_node_id 0 9
    weight := 0, azimuth := 0 }

def m2 : NavModule :=
  { timestep := 1, grid := grid2, nav_graph := [edge2]
    kdtree := ⟨[(0, 0), (5, 5)]⟩ }

lemma geo_idx_m2_00 : geo_idx m2 (0, 0) = (0, 0) := by
  rw [geo_idx, show m2.kdtree = KDTree.mk [((0 : ℝ), (0 : ℝ)), (5, 5)]
    from rfl]
  norm_num [KDTree.query, queryAux, sqDist, unravel_index]

lemma geo_idx_m2_55 : geo_idx m2 (5, 5) = (0, 1) := by
  rw [geo_idx, show m2.kdtree = KDTree.mk [((0 : ℝ), (0 : ℝ)), (5, 5)]
    from rfl]
  norm_num [KDTree.query, queryAux, sqDist, unravel_index]
  exact ⟨rfl, rfl⟩

/-- C8 counterexample: the router, called with a source node that is not in
the graph — the case the spec says must be defended against — fails with
`NodeNotFound`, not the `NoPathFound` the claim promises for a missing
node. -/
theorem C8_routing_errors_counterexample :
    dijkstra_path [edge2] (encode_node_id 5 5) (encode_node_id 0 0) =
        .error .nodeNotFound ∧
      dijkstra_path [edge2] (encode_node_id 5 5) (encode_node_id 0 0) ≠
        .error .noPathFound := by
  have hs : encode_node_id 5 5 ∉ nodeList [edge2] := by
    simp only [nodeList, edge2]
    decide
  have h := dijkstra_not_mem
    (t := encode_node_id 0 0) (G := [edge2]) hs
  exact ⟨h, by rw [h]; simp⟩

/-- Witness for C8: the unreachable-destination case on the hand-built
engine, the missing-source case of the bare router, and the
resolved-node-presence fact on the concrete 2×2 engine. -/
theorem C8_routing_errors_witness :
    get_next_azimuth m2 (0, 0) (5, 5) = .error .noPathFound ∧
      dijkstra_path [edge2] (encode_node_id 5 5) (encode_node_id 0 0) =
        .error .nodeNotFound ∧
      encode_node_id (geo_idx (init geod0 1 grid0) (0, 0)).1
          (geo_idx (init geod0 1 grid0) (0, 0)).2 ∈
        nodeList (init geod0 1 grid0).nav_graph := by
  refine ⟨(C8_routing_errors.1 m2 (0, 0) (5, 5)).2 ?_ ?_ ?_,
    C8_routing_errors.2.1 [edge2] (encode_node_id 5 5)
      (encode_node_id 0 0) ?_,
    C8_routing_errors.2.2 geod0 grid0 1 (0, 0) (by norm_num [grid0])⟩
  · rw [geo_idx_m2_00]
    show encode_node_id 0 0 ∈ nodeList [edge2]
    simp [nodeList, edge2]
  · rw [geo_idx_m2_00, geo_idx_m2_55]
    decide
  · rw [geo_idx_m2_00, geo_idx_m2_55]
    apply no_path_of_not_mem
    · decide
    · show encode_node_id 0 1 ∉ nodeList [edge2]
      simp only [nodeList, edge2]
      decide
  · simp only [nodeList, edge2]
    decide

lemma build_tree_gridA :
    (build_tree gridA).pts = [((0 : ℝ), (0 : ℝ)), (9, 9)] := by
  have h : cellList gridA.ydim gridA.xdim = [(0, 0), (0, 1)] := by decide
  rw [build_tree, h]
  simp [gridA]

lemma build_tree_gridB :
    (build_tree gridB).pts = [((9 : ℝ), (9 : ℝ)), (0, 0)] := by
  have h : cellList gridB.ydim gridB.xdim = [(0, 0), (0, 1)] := by decide
  rw [build_tree, h]
  simp [gridB]

/-- C1: `set_currents_map` rebuilds the graph but silently keeps the
KD-tree built from the previous coordinate grid (the source never
reassigns `self.kdtree`), so after an update the spatial index and the
navigation graph derive from different grids: the query point `(9, 9)` —
exactly the new grid's cell-(0,0) coordinate — resolves through the stale
index to cell `(0, 1)`, while a freshly built engine on the same grid
resolves it to `(0, 0)`. -/
theorem C1_stale_spatial_index :
    (set_currents_map geod0 (init geod0 1 gridA) gridB).kdtree =
      build_tree gridA ∧
    (set_currents_map geod0 (init geod0 1 gridA) gridB).nav_graph =
      transform_map geod0 gridB 1 ∧
    build_tree gridA ≠ build_tree gridB ∧
    geo_idx (set_currents_map geod0 (init geod0 1 gridA) gridB) (9, 9) =
      (0, 1) ∧
    geo_idx (init geod0 1 gridB) (9, 9) = (0, 0) := by
  refine ⟨rfl, rfl, ?_, ?_, ?_⟩
  · intro h
    have hpts := congrArg (fun t => t.pts.head?) h
    rw [show (fun t : KDTree => t.pts.head?) (build_tree gridA) =
        (build_tree gridA).pts.head? from rfl] at hpts
    rw [show (fun t : KDTree => t.pts.head?) (build_tree gridB) =
        (build_tree gridB).pts.head? from rfl] at hpts
    rw [build_tree_gridA, build_tree_gridB] at hpts
    simp only [List.head?_cons, Option.some_inj, Prod.mk.injEq] at hpts
    norm_num at hpts
  · rw [geo_idx, show (set_currents_map geod0 (init geod0 1 gridA)
      gridB).kdtree = KDTree.mk (build_tree gridA).pts from rfl,
      build_tree_gridA]
    norm_num [KDTree.query, queryAux, sqDist, unravel_index]
    exact ⟨rfl, rfl⟩
  · rw [geo_idx, show (init geod0 1 gridB).kdtree =
      KDTree.mk (build_tree gridB).pts from rfl, build_tree_gridB]
    norm_num [KDTree.query, queryAux, sqDist, unravel_index]

/-- C9: on a zero-flow grid, a query resolving to two diagonally adjacent
cells returns the normalized geodesic forward azimuth between the two cell
coordinates and the two-entry coordinate path (the hypotheses on the
geodesy oracle — non-negative distances with a strict triangle inequality
over distinct grid cells — encode that `geod.inv` is a geodesic distance on
a grid in general position). -/
theorem C9_zero_flow_diagonal (geod : GeodesyService) (g : Grid) (ts : ℝ)
    (p q : ℝ × ℝ) (ys xs yd xd : ℕ)
    (hz : ∀ y x, g.currents y x = (0, 0)) (ht : 0 < ts)
    (hd : ∀ a b c d : ℝ, 0 ≤ geod.dist a b c d)
    (hY : g.ydim ≤ 2 ^ 32) (hX : g.xdim ≤ 2 ^ 32)
    (htri : StrictTriangle geod g)
    (hys : ys < g.ydim) (hxs : xs < g.xdim) (hyd : yd < g.ydim)
    (hxd : xd < g.xdim)
    (hdy : yd = ys + 1 ∨ ys = yd + 1) (hdx : xd = xs + 1 ∨ xs = xd + 1)
    (hsrc : geo_idx (init geod ts g) p = (ys, xs))
    (hdst : geo_idx (init geod ts g) q = (yd, xd)) :
    get_next_azimuth (init geod ts g) p q =
      .ok (pymod (geod.az (g.latlons ys xs).2 (g.latlons ys xs).1
          (g.latlons yd xd).2 (g.latlons yd xd).1) 360,
        [g.latlons ys xs, g.latlons yd xd]) := by
  have hadj : kingAdj ys xs yd xd := by unfold kingAdj; omega
  simp only [get_next_azimuth, hsrc, hdst]
  rw [show (init geod ts g).nav_graph = transform_map geod g ts from rfl]
  rw [zero_flow_dijkstra hz ht hd hY hX htri hys hxs hyd hxd hadj]
  show (Except.ok (edgeAzimuth (transform_map geod g ts)
      (encode_node_id ys xs) (encode_node_id yd xd),
      List.map (fun ids => (init geod ts g).grid.latlons
        (decode_node_id ids).1 (decode_node_id ids).2)
        [encode_node_id ys xs, encode_node_id yd xd]) :
    Except NavErr (ℝ × List (ℝ × ℝ))) = _
  rw [edgeAzimuth_transform geod g ts hY hX hys hxs hyd hxd hadj,
    mkEdge_azimuth]
  rw [List.map_cons, List.map_cons, List.map_nil,
    decode_encode ys xs (by omega) (by omega),
    decode_encode yd xd (by omega) (by omega)]
  rfl

/-- Witness for C9: the concrete diagonal query on the zero-flow 2×2
engine. -/
theorem C9_zero_flow_diagonal_witness :
    get_next_azimuth m0 (0, 0) (1, 1) =
      .ok (pymod 45 360, [((0 : ℝ), (0 : ℝ)), (1, 1)]) := by
  have htri : StrictTriangle geod0 grid0 := by
    intro a b c h1 h2 h3 h4 h5 h6 h7 h8 h9
    show cellDist geod0 grid0 a c <
      cellDist geod0 grid0 a b + cellDist geod0 grid0 b c
    norm_num [cellDist, geod0]
  have h := C9_zero_flow_diagonal geod0 grid0 1 (0, 0) (1, 1) 0 0 1 1
    (fun _ _ => rfl) (by norm_num) (fun _ _ _ _ => by norm_num [geod0])
    (by norm_num [grid0]) (by norm_num [grid0]) htri
    (by norm_num [grid0]) (by norm_num [grid0]) (by norm_num [grid0])
    (by norm_num [grid0]) (Or.inl rfl) (Or.inl rfl)
    geo_idx_m0_00 geo_idx_m0_11
  rw [show m0 = init geod0 1 grid0 from rfl, h]
  norm_num [geod0, grid0]

end UHABS
